import Mathlib

/-!
# Verification of the HTML-to-PDF converter core

Shallow embedding of the repository's Python sources:

* `pdf_converter.py`   — `PDFConverter._sanitize_css_for_pdf`,
  `_enhance_html_for_pdf`, `convert_html_to_pdf`, `get_pdf_path`
* `html_finder.py`     — `HTMLFileFinder.find_html_files`
* `config.py`          — `Config.is_html_file`
* `html_to_pdf_converter.py` — `HTMLToPDFConverter.convert_all`,
  `_convert_single_file`

Python strings are modelled as `List Char` (the sources only rely on the
ASCII fragment of `re` character classes and `str.lower`).  Each regex of
the sanitizer is a fixed pattern; we embed every pattern as a dedicated
matcher returning the length of the (leftmost, Python-semantics) match at
the head of the list, and `re.sub` as a left-to-right scan that replaces
each non-overlapping match and continues after it, exactly as CPython's
`re.sub` does (the replaced text is not rescanned).
-/

namespace HtmlPdf

/-- Python `\s` on the ASCII fragment: the characters `str.strip`,
`\s` and friends treat as whitespace. -/
def isPySpace (c : Char) : Bool :=
  c = ' ' || c = '\t' || c = '\n' || c = '\r' || c = '\x0c' || c = '\x0b'

/-- The two quote characters of the `["\']` character classes. -/
def isQuote (c : Char) : Bool :=
  c = '"' || c = '\''

/-- Python `\w` on the ASCII fragment. -/
def isWordChar (c : Char) : Bool :=
  c.isAlphanum || c = '_'

/-- `str.lower` on the ASCII fragment, applied characterwise. -/
def pyLower (l : List Char) : List Char :=
  l.map Char.toLower

/-- Case-insensitive literal match of `pat` against the head of `l`
(the `re.IGNORECASE` reading of a literal in a pattern). -/
def ciHead : List Char → List Char → Bool
  | [], _ => true
  | _ :: _, [] => false
  | p :: ps, c :: cs => (p.toLower == c.toLower) && ciHead ps cs

/-- One step of `re.sub` semantics with fuel: at each position try the
matcher; on a match of length `n` emit the replacement and resume after
the matched span, otherwise keep the character and move one to the
right.  All embedded patterns only match non-empty spans. -/
def scanReplFuel (m : List Char → Option (Nat × List Char)) :
    Nat → List Char → List Char
  | _, [] => []
  | 0, l => l
  | fuel + 1, c :: rest =>
    match m (c :: rest) with
    | some (n, r) => r ++ scanReplFuel m fuel (List.drop (n - 1) rest)
    | none => c :: scanReplFuel m fuel rest

/-- `re.sub(pattern, repl, s)` for one of the embedded fixed patterns:
the fuel `l.length` always suffices because matches are non-empty. -/
def scanRepl (m : List Char → Option (Nat × List Char)) (l : List Char) :
    List Char :=
  scanReplFuel m l.length l

/-- Turn a pure length-matcher into a deleting substitution. -/
def delM (m : List Char → Option Nat) (l : List Char) :
    Option (Nat × List Char) :=
  (m l).map (fun n => (n, []))

theorem scanReplFuel_fuel_irrel (m : List Char → Option (Nat × List Char)) :
    ∀ f g l, l.length ≤ f → l.length ≤ g →
      scanReplFuel m f l = scanReplFuel m g l := by
  intro f
  induction f with
  | zero =>
    intro g l hf _
    have : l = [] := List.eq_nil_of_length_eq_zero (Nat.le_zero.mp hf)
    subst this
    cases g <;> rfl
  | succ f ih =>
    intro g l hf hg
    cases l with
    | nil => cases g <;> rfl
    | cons c rest =>
      cases g with
      | zero => simp at hg
      | succ g =>
        cases hm : m (c :: rest) with
        | none =>
          simp only [scanReplFuel, hm]
          simp only [List.length_cons, Nat.succ_le_succ_iff] at hf hg
          rw [ih g rest hf hg]
        | some nr =>
          obtain ⟨n, r⟩ := nr
          simp only [scanReplFuel, hm]
          simp only [List.length_cons, Nat.succ_le_succ_iff] at hf hg
          have hd : (List.drop (n - 1) rest).length ≤ rest.length := by
            simp [List.length_drop]
          rw [ih g (List.drop (n - 1) rest) (le_trans hd hf) (le_trans hd hg)]

theorem scanRepl_nil (m : List Char → Option (Nat × List Char)) :
    scanRepl m [] = [] := rfl

theorem scanRepl_cons_none {m : List Char → Option (Nat × List Char)}
    {c : Char} {l : List Char} (h : m (c :: l) = none) :
    scanRepl m (c :: l) = c :: scanRepl m l := by
  unfold scanRepl
  simp only [List.length_cons, scanReplFuel, h]

theorem scanRepl_cons_some {m : List Char → Option (Nat × List Char)}
    {c : Char} {l : List Char} {n : Nat} {r : List Char}
    (h : m (c :: l) = some (n, r)) :
    scanRepl m (c :: l) = r ++ scanRepl m (List.drop (n - 1) l) := by
  unfold scanRepl
  simp only [List.length_cons, scanReplFuel, h]
  congr 1
  exact scanReplFuel_fuel_irrel m l.length (List.drop (n - 1) l).length
    (List.drop (n - 1) l) (by simp [List.length_drop]) le_rfl

/-- If the matcher fails at every suffix position inside `a` (with the
rest of the string in scope), the scan walks over `a` unchanged. -/
theorem scanRepl_append_skip {m : List Char → Option (Nat × List Char)}
    (a rest : List Char)
    (h : ∀ x l₂, (x :: l₂) <:+ a → m (x :: (l₂ ++ rest)) = none) :
    scanRepl m (a ++ rest) = a ++ scanRepl m rest := by
  induction a with
  | nil => simp
  | cons x a' ih =>
    have hx : m (x :: (a' ++ rest)) = none :=
      h x a' (List.suffix_refl _)
    rw [List.cons_append, scanRepl_cons_none hx]
    rw [ih (fun y l₂ hs => h y l₂ (hs.trans (List.suffix_cons x a')))]
    rfl

/-- A scan with no match anywhere is the identity. -/
theorem scanRepl_id {m : List Char → Option (Nat × List Char)}
    (l : List Char)
    (h : ∀ x l₂, (x :: l₂) <:+ l → m (x :: l₂) = none) :
    scanRepl m l = l := by
  have h2 := @scanRepl_append_skip m l []
    (fun x l₂ hs => by simpa using h x l₂ hs)
  simpa [scanRepl_nil] using h2

/-! ## The sanitizer's regex patterns, one matcher per pattern

Each matcher decides whether the pattern matches at the head of the list
and, if so, with which length, following CPython's leftmost /
greedy-with-backtracking semantics for these specific patterns. -/

/-- Index of the first (case-insensitive) occurrence of `closeTag`: the
non-greedy `.*?` with `re.DOTALL` stops at the first closer. -/
def findCloser (closeTag : List Char) : List Char → Option Nat
  | [] => none
  | c :: rest =>
    if ciHead closeTag (c :: rest) then some 0
    else (findCloser closeTag rest).map (· + 1)

/-- `openTag[^>]*>.*?closeTag` with `re.DOTALL | re.IGNORECASE`
(patterns `<style[^>]*>.*?</style>` and `<script[^>]*>.*?</script>`).
`[^>]*` is greedy but deterministic: it must stop exactly at the first
`>`. -/
def matchTagBlock (openTag closeTag : List Char) (l : List Char) : Option Nat :=
  if ciHead openTag l then
    let r1 := List.drop openTag.length l
    match List.dropWhile (· != '>') r1 with
    | c :: body =>
      if c = '>' then
        match findCloser closeTag body with
        | some j =>
          some (openTag.length + (List.takeWhile (· != '>') r1).length + 1 + j +
            closeTag.length)
        | none => none
      else none
    | [] => none
  else none

/-- `\s*=\s*["\'][^"\']*["\']`, the shared tail of the attribute
patterns.  Each sub-piece is greedy but deterministic (`\s*` must stop
at a non-space, `[^"\']*` at a quote). -/
def matchAttrTail (l : List Char) : Option Nat :=
  let ws1 := List.takeWhile isPySpace l
  match List.dropWhile isPySpace l with
  | e :: r2 =>
    if e = '=' then
      let ws2 := List.takeWhile isPySpace r2
      match List.dropWhile isPySpace r2 with
      | q :: r3 =>
        if isQuote q then
          let v := List.takeWhile (fun c => !(isQuote c)) r3
          match List.dropWhile (fun c => !(isQuote c)) r3 with
          | q2 :: _ =>
            if isQuote q2 then
              some (ws1.length + 1 + ws2.length + 1 + v.length + 1)
            else none
          | [] => none
        else none
      | [] => none
    else none
  | [] => none

/-- `\s{name}\s*=\s*["\'][^"\']*["\']` with a literal attribute name
(the `style`, `class`, `id` and `role` patterns). -/
def matchAttr (name : List Char) (l : List Char) : Option Nat :=
  match l with
  | c :: rest =>
    if isPySpace c && ciHead name rest then
      match matchAttrTail (List.drop name.length rest) with
      | some t => some (1 + name.length + t)
      | none => none
    else none
  | [] => none

/-- Greedy `.*` backtracking: try the wildcard length `L`, `L-1`, …, `0`
and take the first length whose continuation matches, exactly CPython's
backtracking order for `.*`. -/
def tryFrom (l : List Char) : Nat → Option Nat
  | 0 => matchAttrTail l
  | L + 1 =>
    match matchAttrTail (List.drop (L + 1) l) with
    | some t => some (L + 1 + t)
    | none => tryFrom l L

/-- `\s{pre}.*\s*=\s*["\'][^"\']*["\']` — the `data-.*` and `aria-.*`
patterns of step 5, whose `.*` (any char but newline, greedy) makes a
match able to run past the attribute itself. -/
def matchWildAttr (pre : List Char) (l : List Char) : Option Nat :=
  match l with
  | c :: rest =>
    if isPySpace c && ciHead pre rest then
      let r1 := List.drop pre.length rest
      match tryFrom r1 (List.takeWhile (· != '\n') r1).length with
      | some n => some (1 + pre.length + n)
      | none => none
    else none
  | [] => none

/-- `rel\s*=\s*["\']stylesheet["\'][^>]*>`, the tail of the `<link>`
pattern. -/
def matchLinkTail (l : List Char) : Option Nat :=
  if ciHead (("rel").toList) l then
    let r1 := List.drop 3 l
    let ws1 := List.takeWhile isPySpace r1
    match List.dropWhile isPySpace r1 with
    | e :: r2 =>
      if e = '=' then
        let ws2 := List.takeWhile isPySpace r2
        match List.dropWhile isPySpace r2 with
        | q :: r3 =>
          if isQuote q && ciHead (("stylesheet").toList) r3 then
            match List.drop 10 r3 with
            | q2 :: r4 =>
              if isQuote q2 then
                let nb := List.takeWhile (· != '>') r4
                match List.dropWhile (· != '>') r4 with
                | g :: _ =>
                  if g = '>' then
                    some (3 + ws1.length + 1 + ws2.length + 1 + 10 + 1 +
                      nb.length + 1)
                  else none
                | [] => none
              else none
            | [] => none
          else none
        | [] => none
      else none
    | [] => none
  else none

/-- Backtracking for the first `[^>]*` of the `<link>` pattern. -/
def tryFromLink (l : List Char) : Nat → Option Nat
  | 0 => matchLinkTail l
  | L + 1 =>
    match matchLinkTail (List.drop (L + 1) l) with
    | some t => some (L + 1 + t)
    | none => tryFromLink l L

/-- `<link[^>]*rel\s*=\s*["\']stylesheet["\'][^>]*>` with
`re.IGNORECASE`. -/
def matchLink (l : List Char) : Option Nat :=
  if ciHead (("<link").toList) l then
    let r1 := List.drop 5 l
    match tryFromLink r1 (List.takeWhile (· != '>') r1).length with
    | some n => some (5 + n)
    | none => none
  else none

/-- `\s+` → `' '` (step 7a). -/
def wsRun (l : List Char) : Option (Nat × List Char) :=
  match l with
  | c :: _ =>
    if isPySpace c then some ((List.takeWhile isPySpace l).length, [' '])
    else none
  | [] => none

/-- `>\s+<` → `><` (step 7b). -/
def gtWsLt (l : List Char) : Option (Nat × List Char) :=
  match l with
  | c :: r =>
    if c = '>' then
      let ws := List.takeWhile isPySpace r
      if ws.length = 0 then none
      else
        match List.dropWhile isPySpace r with
        | d :: _ => if d = '<' then some (1 + ws.length + 1, ['>', '<']) else none
        | [] => none
    else none
  | [] => none

/-- `<\s+` → `<` (step 7c). -/
def ltWsDel (l : List Char) : Option (Nat × List Char) :=
  match l with
  | c :: r =>
    if c = '<' then
      let ws := List.takeWhile isPySpace r
      if ws.length = 0 then none else some (1 + ws.length, ['<'])
    else none
  | [] => none

/-- `\s+>` → `>` (step 7d). -/
def wsGtDel (l : List Char) : Option (Nat × List Char) :=
  match l with
  | c :: _ =>
    if isPySpace c then
      match List.dropWhile isPySpace l with
      | d :: _ =>
        if d = '>' then some ((List.takeWhile isPySpace l).length + 1, ['>'])
        else none
      | [] => none
    else none
  | [] => none

/-- `str.strip()`. -/
def pyStrip (l : List Char) : List Char :=
  ((l.dropWhile isPySpace).reverse.dropWhile isPySpace).reverse

/-! ## The sanitizer pipeline (`_sanitize_css_for_pdf`, try-block) -/

/-- Step 5 of the pipeline: the `css_attributes` loop, substituting the
patterns for `id`, `data-.*`, `aria-.*` and `role` in that order. -/
def sanitize_step5 (l : List Char) : List Char :=
  scanRepl (delM (matchAttr (("role").toList)))
    (scanRepl (delM (matchWildAttr (("aria-").toList)))
      (scanRepl (delM (matchWildAttr (("data-").toList)))
        (scanRepl (delM (matchAttr (("id").toList))) l)))

/-- The try-block of `_sanitize_css_for_pdf`: the eight `re.sub` steps
followed by `strip()`.  On actual string inputs none of these operations
raises, so this is the sanitizer's value on the non-raising path. -/
def sanitize_primary (html : List Char) : List Char :=
  let h1 := scanRepl (delM (matchTagBlock (("<style").toList) (("</style>").toList))) html
  let h2 := scanRepl (delM (matchAttr (("style").toList))) h1
  let h3 := scanRepl (delM matchLink) h2
  let h4 := scanRepl (delM (matchAttr (("class").toList))) h3
  let h5 := sanitize_step5 h4
  let h6 := scanRepl (delM (matchTagBlock (("<script").toList) (("</script>").toList))) h5
  let h7a := scanRepl wsRun h6
  let h7b := scanRepl gtWsLt h7a
  let h7c := scanRepl ltWsDel h7b
  let h7d := scanRepl wsGtDel h7c
  pyStrip h7d

/-! ## The fallback pass (`except Exception` branch) -/

/-- `<(\w+)[^>]*>` → `<\1>`: strip all attributes from opening tags. -/
def matchOpenTagNorm (l : List Char) : Option (Nat × List Char) :=
  match l with
  | c :: r1 =>
    if c = '<' then
      let w := List.takeWhile isWordChar r1
      if w.length = 0 then none
      else
        let r2 := List.drop w.length r1
        let nb := List.takeWhile (· != '>') r2
        match List.dropWhile (· != '>') r2 with
        | d :: _ =>
          if d = '>' then some (1 + w.length + nb.length + 1, '<' :: (w ++ ['>']))
          else none
        | [] => none
    else none
  | [] => none

/-- Shared tail of `</?(\w+)[^>]*>` after the optional slash. -/
def matchAnyTagAfter (slash : Nat) (r1 : List Char) : Option (Nat × List Char) :=
  let w := List.takeWhile isWordChar r1
  if w.length = 0 then none
  else
    let r2 := List.drop w.length r1
    let nb := List.takeWhile (· != '>') r2
    match List.dropWhile (· != '>') r2 with
    | d :: _ =>
      if d = '>' then some (1 + slash + w.length + nb.length + 1, w) else none
    | [] => none

/-- `</?(\w+)[^>]*>`, returning the captured tag name (used by
`re.findall`). -/
def matchAnyTag (l : List Char) : Option (Nat × List Char) :=
  match l with
  | c :: r0 =>
    if c = '<' then
      match r0 with
      | c2 :: r1 =>
        if c2 = '/' then matchAnyTagAfter 1 r1 else matchAnyTagAfter 0 r0
      | [] => matchAnyTagAfter 0 r0
    else none
  | [] => none

/-- `re.findall(r'</?(\w+)[^>]*>', s)`: collect the captured names of
all non-overlapping matches, left to right. -/
def findAllTagsFuel : Nat → List Char → List (List Char)
  | _, [] => []
  | 0, _ => []
  | fuel + 1, c :: rest =>
    match matchAnyTag (c :: rest) with
    | some (n, w) => w :: findAllTagsFuel fuel (List.drop (n - 1) rest)
    | none => findAllTagsFuel fuel rest

def findAllTags (l : List Char) : List (List Char) :=
  findAllTagsFuel l.length l

/-- Tail of `rf'</?{tag}[^>]*>'` after the optional slash. -/
def matchNamedTagAfter (tag : List Char) (slash : Nat) (r1 : List Char) :
    Option Nat :=
  if ciHead tag r1 then
    let r2 := List.drop tag.length r1
    let nb := List.takeWhile (· != '>') r2
    match List.dropWhile (· != '>') r2 with
    | d :: _ =>
      if d = '>' then some (1 + slash + tag.length + nb.length + 1) else none
    | [] => none
  else none

/-- `rf'</?{re.escape(tag)}[^>]*>'` with `re.IGNORECASE` (tag names are
`\w+`, so the escape is the identity). -/
def matchNamedTag (tag : List Char) (l : List Char) : Option Nat :=
  match l with
  | c :: r0 =>
    if c = '<' then
      match r0 with
      | c2 :: r1 =>
        if c2 = '/' then matchNamedTagAfter tag 1 r1 else matchNamedTagAfter tag 0 r0
      | [] => matchNamedTagAfter tag 0 r0
    else none
  | [] => none

/-- `set(all_tags)` iterated in first-occurrence order.  (CPython's set
iteration order is unspecified; the fallback's output can depend on it
when removals of distinct tags overlap, and we fix this deterministic
choice.) -/
def dedupeTags (ts : List (List Char)) : List (List Char) :=
  ts.foldl (fun acc t => if t ∈ acc then acc else acc ++ [t]) []

/-- The `basic_tags` allow-list of the fallback pass. -/
def basic_tags : List (List Char) :=
  [("p").toList, ("h1").toList, ("h2").toList, ("h3").toList, ("h4").toList,
   ("h5").toList, ("h6").toList, ("div").toList, ("span").toList,
   ("ul").toList, ("ol").toList, ("li").toList, ("table").toList,
   ("tr").toList, ("td").toList, ("th").toList, ("br").toList,
   ("strong").toList, ("em").toList, ("b").toList, ("i").toList]

/-- The inner `try` of the `except Exception` branch: strip all
attributes from opening tags, then delete every tag whose (lowercased)
name is not in `basic_tags`. -/
def sanitize_fallback (html : List Char) : List Char :=
  let clean1 := scanRepl matchOpenTagNorm html
  let tags := dedupeTags (findAllTags clean1)
  tags.foldl
    (fun acc tag =>
      if pyLower tag ∈ basic_tags then acc
      else scanRepl (delM (matchNamedTag tag)) acc)
    clean1

/-- The fixed placeholder document of the final bare `except`. -/
def placeholder_html : List Char :=
  ("<html><body><p>Content processing failed - original content could not be parsed safely for PDF conversion.</p></body></html>").toList

/-! ## `_enhance_html_for_pdf`: print stylesheet and its injection rule -/

/-- The `pdf_css` literal of `_enhance_html_for_pdf`, verbatim. -/
def pdf_css : List Char :=
  ("\n        <style type=\"text/css\">\n        @page \x7b\n            size: A4;\n            margin: 0.75in;\n        \x7d\n        \n        body \x7b\n            font-family: Arial, sans-serif;\n            line-height: 1.4;\n            color: #333;\n            font-size: 12pt;\n        \x7d\n        \n        h1, h2, h3, h4, h5, h6 \x7b\n            page-break-after: avoid;\n            margin-top: 1em;\n            margin-bottom: 0.5em;\n            color: #222;\n        \x7d\n        \n        h1 \x7b font-size: 18pt; \x7d\n        h2 \x7b font-size: 16pt; \x7d\n        h3 \x7b font-size: 14pt; \x7d\n        h4 \x7b font-size: 13pt; \x7d\n        h5 \x7b font-size: 12pt; \x7d\n        h6 \x7b font-size: 11pt; \x7d\n        \n        p \x7b\n            margin-bottom: 0.8em;\n            text-align: justify;\n        \x7d\n        \n        img \x7b\n            max-width: 100%;\n            height: auto;\n            page-break-inside: avoid;\n        \x7d\n        \n        table \x7b\n            page-break-inside: avoid;\n            border-collapse: collapse;\n            width: 100%;\n            margin-bottom: 1em;\n        \x7d\n        \n        table td, table th \x7b\n            border: 1px solid #ddd;\n            padding: 8px;\n            text-align: left;\n        \x7d\n        \n        table th \x7b\n            background-color: #f2f2f2;\n            font-weight: bold;\n        \x7d\n        \n        pre, code \x7b\n            font-family: \"Courier New\", monospace;\n            background-color: #f5f5f5;\n            padding: 0.2em 0.4em;\n            border-radius: 3px;\n            font-size: 11pt;\n        \x7d\n        \n        pre \x7b\n            padding: 1em;\n            overflow: hidden;\n            page-break-inside: avoid;\n            border: 1px solid #ddd;\n            border-radius: 4px;\n        \x7d\n        \n        blockquote \x7b\n            margin: 1em 2em;\n            padding-left: 1em;\n            border-left: 3px solid #ddd;\n            font-style: italic;\n            color: #666;\n        \x7d\n        \n        ul, ol \x7b\n            padding-left: 2em;\n            margin-bottom: 1em;\n        \x7d\n        \n        li \x7b\n            margin-bottom: 0.3em;\n        \x7d\n        \n        a \x7b\n            color: #0066cc;\n            text-decoration: underline;\n        \x7d\n        \n        .page-break \x7b\n            page-break-before: always;\n        \x7d\n        </style>\n        ").toList


/-- First index at which `pat` occurs (`str.find`); `none` when `pat not
in s`. -/
def strFind (pat : List Char) : List Char → Option Nat
  | [] => if pat.isPrefixOf ([] : List Char) then some 0 else none
  | c :: rest =>
    if pat.isPrefixOf (c :: rest) then some 0
    else (strFind pat rest).map (· + 1)

/-- The injection rule of `_enhance_html_for_pdf` (lines 186-200): find
`<head>` case-insensitively and insert the stylesheet after it; else
find `<html>` and insert a synthesized head; else wrap the whole
content. -/
def enhance_inject (sanitized : List Char) : List Char :=
  match strFind (("<head>").toList) (pyLower sanitized) with
  | some i =>
    List.take (i + 6) sanitized ++ pdf_css ++ List.drop (i + 6) sanitized
  | none =>
    match strFind (("<html>").toList) (pyLower sanitized) with
    | some i =>
      List.take (i + 6) sanitized ++ ("<head>").toList ++ pdf_css ++
        ("</head>").toList ++ List.drop (i + 6) sanitized
    | none =>
      ("<html><head>").toList ++ pdf_css ++ ("</head><body>").toList ++
        sanitized ++ ("</body></html>").toList

/-- `_enhance_html_for_pdf` on the non-raising sanitizer path. -/
def enhance_html_for_pdf (html : List Char) : List Char :=
  enhance_inject (sanitize_primary html)

/-! ## Exceptions and the three-tier degradation of the sanitizer -/

/-- Python exception kinds as seen by the handlers of this code base:
`except Exception` catches `exc`, while `KeyboardInterrupt`
(a `BaseException` that is not an `Exception`) passes through it. -/
inductive PyExcKind where
  | exc : String → PyExcKind
  | interrupt : PyExcKind
deriving DecidableEq

/-- Fault injection for the two regex passes of `_sanitize_css_for_pdf`:
whether the primary pass raises, and whether the fallback pass raises.
(The regex layer raises `Exception` subclasses only.) -/
structure SanitizeFaults where
  primaryRaises : Bool
  fallbackRaises : Bool

/-- The try-block as a fallible computation. -/
def sanitize_try (f : SanitizeFaults) (html : List Char) :
    Except PyExcKind (List Char) :=
  if f.primaryRaises then .error (.exc "primary pass raised")
  else .ok (sanitize_primary html)

/-- The inner try of the `except Exception` branch. -/
def sanitize_fallback_try (f : SanitizeFaults) (html : List Char) :
    Except PyExcKind (List Char) :=
  if f.fallbackRaises then .error (.exc "fallback pass raised")
  else .ok (sanitize_fallback html)

/-- `_sanitize_css_for_pdf` with its two exception handlers: the
`except Exception` branch runs the fallback pass, whose bare `except`
returns the placeholder document. -/
def sanitize_css_for_pdf (f : SanitizeFaults) (html : List Char) :
    Except PyExcKind (List Char) :=
  match sanitize_try f html with
  | .ok r => .ok r
  | .error _ =>
    match sanitize_fallback_try f html with
    | .ok r => .ok r
    | .error _ => .ok placeholder_html

/-! ## `pathlib` fragment and `get_pdf_path` -/

/-- A `pathlib.PurePosixPath`: an absolute flag plus the parts. -/
structure PyPath where
  absolute : Bool
  parts : List (List Char)
deriving DecidableEq

/-- Index of the last occurrence of `c` (`str.rfind`). -/
def rfindIdx (c : Char) : List Char → Option Nat
  | [] => none
  | x :: xs =>
    match rfindIdx c xs with
    | some i => some (i + 1)
    | none => if x = c then some 0 else none

/-- `PurePath.suffix` on a file name: `name[i:]` where `i` is the last
dot, provided `0 < i < len(name) - 1`, else the empty string. -/
def pySuffix (name : List Char) : List Char :=
  match rfindIdx '.' name with
  | some i =>
    if 0 < i ∧ i + 1 < name.length then List.drop i name else []
  | none => []

/-- `PurePath.stem` on a file name. -/
def pyStem (name : List Char) : List Char :=
  match rfindIdx '.' name with
  | some i =>
    if 0 < i ∧ i + 1 < name.length then List.take i name else name
  | none => name

/-- `PurePath.name`: the last part (empty for the root / empty path). -/
def PyPath.name (p : PyPath) : List Char := p.parts.getLastD []

/-- `PurePath.parent`: drop the last part. -/
def PyPath.parent (p : PyPath) : PyPath := ⟨p.absolute, p.parts.dropLast⟩

/-- The `/` operator: an absolute right operand replaces the left. -/
def PyPath.join (p q : PyPath) : PyPath :=
  if q.absolute then q else ⟨p.absolute, p.parts ++ q.parts⟩

/-- `PDFConverter.get_pdf_path`: stem plus `.pdf`, under
`output_base_path / relative_path.parent`. -/
def get_pdf_path (html_file_path output_base_path relative_path : PyPath) :
    PyPath :=
  let pdf_filename := pyStem html_file_path.name ++ (".pdf").toList
  let pdf_relative_dir := relative_path.parent
  (output_base_path.join pdf_relative_dir).join ⟨false, [pdf_filename]⟩

/-- The spec-side description of the destination file name: the source
file name with its extension (suffix) replaced by lowercase `.pdf`. -/
def spec_pdf_name (name : List Char) : List Char :=
  List.take (name.length - (pySuffix name).length) name ++ (".pdf").toList

/-! ## `Config.is_html_file` and `HTMLFileFinder.find_html_files` -/

/-- `Config.SUPPORTED_EXTENSIONS`. -/
def SUPPORTED_EXTENSIONS : List (List Char) :=
  [(".html").toList, (".htm").toList]

/-- The name component a relative path ends with. -/
def pathName (p : List (List Char)) : List Char := p.getLastD []

/-- `Config.is_html_file`: `file_path.suffix.lower() in
Config.SUPPORTED_EXTENSIONS`. -/
def is_html_file (p : List (List Char)) : Bool :=
  decide (pyLower (pySuffix (pathName p)) ∈ SUPPORTED_EXTENSIONS)

/-- A directory tree: a list of entries, each a regular file or a
directory with its own entry list (encoded as a single inductive so all
recursions are structural). -/
inductive FS where
  | nilFS : FS
  | fileCons : List Char → FS → FS
  | dirCons : List Char → FS → FS → FS

/-- `Path.rglob("*")` over the tree: every entry anywhere beneath the
root, as its path relative to the root plus an `is_file()` flag. -/
def rglob : FS → List (List (List Char) × Bool)
  | .nilFS => []
  | .fileCons n rest => ([n], true) :: rglob rest
  | .dirCons n children rest =>
    ([n], false) ::
      ((rglob children).map (fun pb => (n :: pb.1, pb.2)) ++ rglob rest)

/-- `HTMLFileFinder.find_html_files`: keep entries that are regular
files and pass `Config.is_html_file`, yielding their paths. -/
def find_html_files (root : FS) : List (List (List Char)) :=
  ((rglob root).filter (fun pb => pb.2 && is_html_file pb.1)).map
    (fun pb => pb.1)

/-- The spec-side set for C4: regular files anywhere beneath the root
whose extension, lowercased, is `.html` or `.htm`, gathered directly by
structural recursion (directories contribute no path of their own). -/
def spec_html_files : FS → List (List (List Char))
  | .nilFS => []
  | .fileCons n rest =>
    (if decide (pyLower (pySuffix n) ∈ SUPPORTED_EXTENSIONS) then [[n]] else []) ++
      spec_html_files rest
  | .dirCons n children rest =>
    (spec_html_files children).map (fun p => n :: p) ++ spec_html_files rest

/-! ## The orchestrator (`HTMLToPDFConverter`) -/

/-- What one discovered file's conversion attempt does, as oracles: the
result of the path bookkeeping (lines 82-85, may raise) and the result
of `convert_html_to_pdf`'s try-block (read, render, write: `ok b` for a
normal return of `b`, `error` for a raise). -/
structure FileOutcome where
  prep : Except PyExcKind Unit
  body : Except PyExcKind Bool

/-- Is this a `KeyboardInterrupt`-style escape? -/
def isInterruptE {α : Type} : Except PyExcKind α → Bool
  | .error .interrupt => true
  | _ => false

/-- The counters of `HTMLToPDFConverter`. -/
structure ConvStats where
  total_files : Nat
  successful_conversions : Nat
  failed_conversions : Nat
deriving DecidableEq

/-- `PDFConverter.convert_html_to_pdf`: the `except Exception` handler
turns any `Exception` raised in the body into a `False` return;
`KeyboardInterrupt` passes through. -/
def convert_html_to_pdf_result (body : Except PyExcKind Bool) :
    Except PyExcKind Bool :=
  match body with
  | .ok b => .ok b
  | .error (.exc _) => .ok false
  | .error .interrupt => .error .interrupt

/-- `HTMLToPDFConverter._convert_single_file`: success increments
`successful_conversions`, a `False` return or any `Exception` increments
`failed_conversions`; `KeyboardInterrupt` escapes. -/
def convert_single_file (st : ConvStats) (o : FileOutcome) :
    Except PyExcKind ConvStats :=
  let inner : Except PyExcKind Bool :=
    match o.prep with
    | .error e => .error e
    | .ok _ => convert_html_to_pdf_result o.body
  match inner with
  | .ok true =>
    .ok { st with successful_conversions := st.successful_conversions + 1 }
  | .ok false =>
    .ok { st with failed_conversions := st.failed_conversions + 1 }
  | .error (.exc _) =>
    .ok { st with failed_conversions := st.failed_conversions + 1 }
  | .error .interrupt => .error .interrupt

/-- The per-file loop of `convert_all`. -/
def convert_all_loop : List FileOutcome → ConvStats → Except PyExcKind ConvStats
  | [], st => .ok st
  | o :: rest, st =>
    match convert_single_file st o with
    | .ok st2 => convert_all_loop rest st2
    | .error e => .error e

/-- `HTMLToPDFConverter.convert_all` on a fresh converter: set
`total_files`, return `(0, 0)` for an empty batch, else run the loop
and return the two counters. -/
def convert_all (outcomes : List FileOutcome) :
    Except PyExcKind (Nat × Nat) :=
  let total := outcomes.length
  if total = 0 then .ok (0, 0)
  else
    match convert_all_loop outcomes ⟨total, 0, 0⟩ with
    | .ok st => .ok (st.successful_conversions, st.failed_conversions)
    | .error e => .error e

/-! ## Filesystem-effect trace of `convert_html_to_pdf` (for C9) -/

/-- The two filesystem state changes the function can make for a file:
creating the destination directory and writing/creating the PDF file. -/
inductive FsEvent where
  | mkdirParents : FsEvent
  | writePdf : FsEvent
deriving DecidableEq

/-- Oracles for one run of `convert_html_to_pdf`'s try-block. -/
structure ConvertOracle where
  mkdirRes : Except PyExcKind Unit
  readRes : Except PyExcKind (List Char)
  renderRes : Except PyExcKind Bool
  writeRes : Except PyExcKind Unit

/-- The try-block of `convert_html_to_pdf` in source order: `mkdir`
first (line 38), then read (43), then render (51), then — only when
`pisa_status.err` is falsy — open and write the PDF (59-60).  The
event list records the state changes made, in order. -/
def convert_body_trace (o : ConvertOracle) :
    Except PyExcKind Bool × List FsEvent :=
  match o.mkdirRes with
  | .error e => (.error e, [])
  | .ok _ =>
    match o.readRes with
    | .error e => (.error e, [FsEvent.mkdirParents])
    | .ok _ =>
      match o.renderRes with
      | .error e => (.error e, [FsEvent.mkdirParents])
      | .ok err =>
        if err then (.ok false, [FsEvent.mkdirParents])
        else
          match o.writeRes with
          | .error e => (.error e, [FsEvent.mkdirParents, FsEvent.writePdf])
          | .ok _ => (.ok true, [FsEvent.mkdirParents, FsEvent.writePdf])

/-- `convert_html_to_pdf` with its `except Exception` handler; the
events already performed are unaffected by the catch. -/
def convert_html_to_pdf_trace (o : ConvertOracle) :
    Except PyExcKind Bool × List FsEvent :=
  match convert_body_trace o with
  | (.error (.exc _), evs) => (.ok false, evs)
  | r => r

/-! ## Substring helpers for the structural claims -/

/-- Does `pat` occur (case-sensitively) anywhere in the list? -/
def containsList (pat : List Char) : List Char → Bool
  | [] => pat.isPrefixOf ([] : List Char)
  | c :: rest => pat.isPrefixOf (c :: rest) || containsList pat rest

/-- Does the text contain `openTag` followed (at or after the end of the
opener) by `closeTag` — i.e. a `openTag …  closeTag` substring? -/
def hasTagPair (openTag closeTag : List Char) : List Char → Bool
  | [] => false
  | c :: rest =>
    (openTag.isPrefixOf (c :: rest) &&
      containsList closeTag (List.drop (openTag.length - 1) rest))
    || hasTagPair openTag closeTag rest


/-! ## Helper lemmas -/

theorem rfindIdx_lt_length {c : Char} {l : List Char} {i : Nat}
    (h : rfindIdx c l = some i) : i < l.length := by
  induction l generalizing i with
  | nil => simp [rfindIdx] at h
  | cons x xs ih =>
    unfold rfindIdx at h
    cases hr : rfindIdx c xs with
    | some j =>
      rw [hr] at h
      simp only [Option.some.injEq] at h
      subst h
      have := ih hr
      simp only [List.length_cons]
      omega
    | none =>
      rw [hr] at h
      by_cases hx : x = c
      · simp only [hx, if_pos, Option.some.injEq] at h
        simp only [List.length_cons]
        omega
      · simp [hx] at h

theorem pyStem_add_pdf (name : List Char) :
    pyStem name ++ (".pdf").toList = spec_pdf_name name := by
  unfold pyStem spec_pdf_name pySuffix
  cases h : rfindIdx '.' name with
  | none => simp
  | some i =>
    have hi := rfindIdx_lt_length h
    by_cases hc : 0 < i ∧ i + 1 < name.length
    · have hlen : name.length - (List.drop i name).length = i := by
        rw [List.length_drop]; omega
      simp [hc, hlen]
      rw [min_eq_left hi.le]
      omega
    · simp [hc, List.take_length]

theorem convert_single_file_ok (st : ConvStats) (o : FileOutcome)
    (hp : isInterruptE o.prep = false) (hb : isInterruptE o.body = false) :
    ∃ st2 : ConvStats, convert_single_file st o = Except.ok st2 ∧
      st2.successful_conversions + st2.failed_conversions =
        st.successful_conversions + st.failed_conversions + 1 ∧
      st2.total_files = st.total_files := by
  cases hpp : o.prep with
  | error e =>
    cases e with
    | exc s =>
      refine ⟨{ st with failed_conversions := st.failed_conversions + 1 },
        by simp [convert_single_file, hpp], ?_, rfl⟩
      show st.successful_conversions + (st.failed_conversions + 1) =
        st.successful_conversions + st.failed_conversions + 1
      omega
    | interrupt => rw [hpp] at hp; simp [isInterruptE] at hp
  | ok u =>
    cases hbb : o.body with
    | ok b =>
      cases b
      · refine ⟨{ st with failed_conversions := st.failed_conversions + 1 },
          by simp [convert_single_file, convert_html_to_pdf_result, hpp, hbb], ?_, rfl⟩
        show st.successful_conversions + (st.failed_conversions + 1) =
          st.successful_conversions + st.failed_conversions + 1
        omega
      · refine ⟨{ st with successful_conversions := st.successful_conversions + 1 },
          by simp [convert_single_file, convert_html_to_pdf_result, hpp, hbb], ?_, rfl⟩
        show st.successful_conversions + 1 + st.failed_conversions =
          st.successful_conversions + st.failed_conversions + 1
        omega
    | error e =>
      cases e with
      | exc s =>
        refine ⟨{ st with failed_conversions := st.failed_conversions + 1 },
          by simp [convert_single_file, convert_html_to_pdf_result, hpp, hbb], ?_, rfl⟩
        show st.successful_conversions + (st.failed_conversions + 1) =
          st.successful_conversions + st.failed_conversions + 1
        omega
      | interrupt => rw [hbb] at hb; simp [isInterruptE] at hb

theorem convert_all_loop_ok (outcomes : List FileOutcome) :
    ∀ st : ConvStats,
      (∀ o ∈ outcomes, isInterruptE o.prep = false ∧ isInterruptE o.body = false) →
      ∃ st2 : ConvStats, convert_all_loop outcomes st = Except.ok st2 ∧
        st2.successful_conversions + st2.failed_conversions =
          st.successful_conversions + st.failed_conversions + outcomes.length ∧
        st2.total_files = st.total_files := by
  induction outcomes with
  | nil => exact fun st _ => ⟨st, rfl, by simp, rfl⟩
  | cons o rest ih =>
    intro st h
    obtain ⟨hp, hb⟩ := h o (by simp)
    obtain ⟨st1, h1, hsum1, htot1⟩ := convert_single_file_ok st o hp hb
    obtain ⟨st2, h2, hsum2, htot2⟩ :=
      ih st1 (fun o ho => h o (List.mem_cons_of_mem _ ho))
    refine ⟨st2, ?_, ?_, ?_⟩
    · simp only [convert_all_loop, h1, h2]
    · rw [hsum2, hsum1]; simp [List.length_cons]; omega
    · rw [htot2, htot1]

/-! ## Claim theorems -/

/-- C1: the markup sanitizer is total.  Whatever combination of the two
regex passes raises, `_sanitize_css_for_pdf` returns `ok` on every
string input: the primary pipeline result when the try-block does not
raise, the fallback (attribute-strip plus `basic_tags` allow-list) pass
when only the primary raises, and the fixed placeholder document when
both raise.  No exception propagates to the caller. -/
theorem claim_C1_sanitizer_total (f : SanitizeFaults) (html : List Char) :
    sanitize_css_for_pdf f html =
      Except.ok (if f.primaryRaises = false then sanitize_primary html
        else if f.fallbackRaises = false then sanitize_fallback html
        else placeholder_html) := by
  obtain ⟨p, fb⟩ := f
  cases p <;> cases fb <;> rfl

/-- C2: per-file fault containment.  (a) At the per-file boundary, a
prep fault or a body fault of `Exception` kind is recorded as that
file's failure (the failure counter increments) and the call returns
normally.  (b) The batch loop: when no per-file outcome is a
`KeyboardInterrupt`, no fault escapes — the loop returns `ok` and every
file contributes exactly one counted outcome, so processing reached
every file. -/
theorem claim_C2_per_file_fault_containment :
    (∀ (st : ConvStats) (o : FileOutcome) (e : String),
      (o.prep = Except.error (PyExcKind.exc e) ∨
        (o.prep = Except.ok () ∧ o.body = Except.error (PyExcKind.exc e))) →
      convert_single_file st o =
        Except.ok { st with failed_conversions := st.failed_conversions + 1 }) ∧
    (∀ (outcomes : List FileOutcome) (st : ConvStats),
      (∀ o ∈ outcomes, isInterruptE o.prep = false ∧ isInterruptE o.body = false) →
      ∃ st2 : ConvStats, convert_all_loop outcomes st = Except.ok st2 ∧
        st2.successful_conversions + st2.failed_conversions =
          st.successful_conversions + st.failed_conversions + outcomes.length ∧
        st2.total_files = st.total_files) := by
  constructor
  · intro st o e h
    rcases h with h | ⟨h1, h2⟩
    · simp [convert_single_file, h]
    · simp [convert_single_file, convert_html_to_pdf_result, h1, h2]
  · exact fun outcomes st h => convert_all_loop_ok outcomes st h

/-- Witness for C2 at concrete inputs: a render-stage exception is
recorded as a failure of that file, and a two-file batch with one fault
still processes both files. -/
theorem claim_C2_witness :
    convert_single_file ⟨3, 1, 0⟩
        ⟨Except.ok (), Except.error (PyExcKind.exc "render failed")⟩ =
      Except.ok ⟨3, 1, 1⟩ ∧
    (∃ st2 : ConvStats,
      convert_all_loop
          [⟨Except.ok (), Except.ok true⟩,
           ⟨Except.ok (), Except.error (PyExcKind.exc "boom")⟩] ⟨2, 0, 0⟩ =
        Except.ok st2 ∧
      st2.successful_conversions + st2.failed_conversions = 0 + 0 + 2 ∧
      st2.total_files = 2) :=
  ⟨claim_C2_per_file_fault_containment.1 ⟨3, 1, 0⟩ _ "render failed"
      (Or.inr ⟨rfl, rfl⟩),
    claim_C2_per_file_fault_containment.2 _ ⟨2, 0, 0⟩ (by decide)⟩

/-- C3: for every batch run (on a fresh converter, as both entry points
construct one per run) that is not interrupted, `convert_all` returns
counters with `successful + failed = total`, the number of discovered
files: each file increments exactly one of the two counters once. -/
theorem claim_C3_counter_partition (outcomes : List FileOutcome)
    (h : ∀ o ∈ outcomes, isInterruptE o.prep = false ∧ isInterruptE o.body = false) :
    ∃ s f, convert_all outcomes = Except.ok (s, f) ∧ s + f = outcomes.length := by
  unfold convert_all
  by_cases h0 : outcomes.length = 0
  · exact ⟨0, 0, by simp [h0], by omega⟩
  · obtain ⟨st2, hloop, hsum, _⟩ :=
      convert_all_loop_ok outcomes ⟨outcomes.length, 0, 0⟩ h
    refine ⟨st2.successful_conversions, st2.failed_conversions, ?_, ?_⟩
    · simp [h0, hloop]
    · simpa using hsum

/-- Witness for C3: a batch of three files — one success, one render
failure, one prep exception — yields `successful + failed = 3`. -/
theorem claim_C3_witness :
    (∀ o ∈ [(⟨Except.ok (), Except.ok true⟩ : FileOutcome),
            ⟨Except.ok (), Except.error (PyExcKind.exc "render")⟩,
            ⟨Except.error (PyExcKind.exc "prep"), Except.ok true⟩],
      isInterruptE o.prep = false ∧ isInterruptE o.body = false) ∧
    (∃ s f,
      convert_all [(⟨Except.ok (), Except.ok true⟩ : FileOutcome),
            ⟨Except.ok (), Except.error (PyExcKind.exc "render")⟩,
            ⟨Except.error (PyExcKind.exc "prep"), Except.ok true⟩] =
        Except.ok (s, f) ∧ s + f = 3) :=
  ⟨by decide, claim_C3_counter_partition _ (by decide)⟩

/-- C5: the PDF path mapper returns
`outputRoot / parent(relativePath) / (filename with its suffix replaced
by lowercase ".pdf")` for all inputs, and on the concrete instance maps
`("a/b/c.HTML", "/out", "b/c.HTML")` to `/out/b/c.pdf` — the
replacement extension is lowercase regardless of the source case. -/
theorem claim_C5_pdf_path_mapper :
    (∀ src out rel : PyPath,
      get_pdf_path src out rel =
        (out.join rel.parent).join ⟨false, [spec_pdf_name src.name]⟩) ∧
    get_pdf_path ⟨false, [("a").toList, ("b").toList, ("c.HTML").toList]⟩
        ⟨true, [("out").toList]⟩ ⟨false, [("b").toList, ("c.HTML").toList]⟩ =
      ⟨true, [("out").toList, ("b").toList, ("c.pdf").toList]⟩ := by
  constructor
  · intro src out rel
    unfold get_pdf_path
    rw [pyStem_add_pdf]
  · decide

/-- C9 counterexample: the destination directory is NOT created lazily.
With a source file that cannot be read (read raises), the conversion
fails (`ok false` after the handler) — yet the trace shows the
destination directory was already created, because `mkdir` is the first
statement of the try-block (line 38), before the read (line 43).  This
refutes "no destination directory is created for that file". -/
theorem claim_C9_counterexample :
    (⟨Except.ok (), Except.error (PyExcKind.exc "unreadable source"),
        Except.ok false, Except.ok ()⟩ : ConvertOracle).readRes =
      Except.error (PyExcKind.exc "unreadable source") ∧
    convert_html_to_pdf_trace
        ⟨Except.ok (), Except.error (PyExcKind.exc "unreadable source"),
          Except.ok false, Except.ok ()⟩ =
      (Except.ok false, [FsEvent.mkdirParents]) :=
  ⟨rfl, rfl⟩

/-- C9 amended: directory creation is eager, not lazy.  Whenever the
`mkdir` call itself succeeds the destination directory is created as the
very first filesystem action of the attempt — before the source is read
and regardless of any later failure — while the PDF write is attempted
exactly on the success path (mkdir succeeded, read succeeded, and the
render engine reported no error). -/
theorem claim_C9_amended (o : ConvertOracle) :
    (o.mkdirRes = Except.ok () →
      (convert_html_to_pdf_trace o).2.head? = some FsEvent.mkdirParents) ∧
    (FsEvent.writePdf ∈ (convert_html_to_pdf_trace o).2 ↔
      (o.mkdirRes = Except.ok () ∧ (∃ s, o.readRes = Except.ok s) ∧
        o.renderRes = Except.ok false)) := by
  obtain ⟨mk, rd, rn, wr⟩ := o
  cases mk with
  | error e =>
    cases e <;> simp [convert_html_to_pdf_trace, convert_body_trace]
  | ok u =>
    cases u
    cases rd with
    | error e =>
      cases e <;> simp [convert_html_to_pdf_trace, convert_body_trace]
    | ok s =>
      cases rn with
      | error e =>
        cases e <;> simp [convert_html_to_pdf_trace, convert_body_trace]
      | ok err =>
        cases err with
        | true =>
          simp [convert_html_to_pdf_trace, convert_body_trace]
        | false =>
          cases wr with
          | error e =>
            cases e <;> simp [convert_html_to_pdf_trace, convert_body_trace]
          | ok u2 =>
            cases u2
            simp [convert_html_to_pdf_trace, convert_body_trace]

/-- Witness for C9 amended at the all-successful oracle. -/
theorem claim_C9_witness :
    ((⟨Except.ok (), Except.ok [], Except.ok false, Except.ok ()⟩ :
        ConvertOracle).mkdirRes = Except.ok ()) ∧
    (convert_html_to_pdf_trace
        ⟨Except.ok (), Except.ok [], Except.ok false, Except.ok ()⟩).2.head? =
      some FsEvent.mkdirParents :=
  ⟨rfl,
    (claim_C9_amended
      ⟨Except.ok (), Except.ok [], Except.ok false, Except.ok ()⟩).1 rfl⟩

theorem rglob_path_ne_nil (t : FS) :
    ∀ pb ∈ rglob t, pb.1 ≠ [] := by
  induction t with
  | nilFS => intro pb h; simp [rglob] at h
  | fileCons n rest ih =>
    intro pb h
    simp only [rglob] at h
    rcases List.mem_cons.mp h with rfl | h2
    · simp
    · exact ih pb h2
  | dirCons n children rest ihc ihr =>
    intro pb h
    simp only [rglob] at h
    rcases List.mem_cons.mp h with rfl | h2
    · simp
    · rcases List.mem_append.mp h2 with h3 | h3
      · obtain ⟨qb, hq, rfl⟩ := List.mem_map.mp h3
        simp
      · exact ihr pb h3

theorem pathName_cons {n : List Char} {q : List (List Char)} (h : q ≠ []) :
    pathName (n :: q) = pathName q := by
  cases q with
  | nil => exact absurd rfl h
  | cons a as => simp [pathName, List.getLastD_cons]

theorem is_html_file_cons {n : List Char} {q : List (List Char)} (h : q ≠ []) :
    is_html_file (n :: q) = is_html_file q := by
  unfold is_html_file
  rw [pathName_cons h]

theorem find_spec_mem (t : FS) :
    ∀ p : List (List Char),
      ((p, true) ∈ rglob t ∧ is_html_file p = true) ↔ p ∈ spec_html_files t := by
  induction t with
  | nilFS => intro p; simp [rglob, spec_html_files]
  | fileCons n rest ih =>
    intro p
    simp only [rglob, spec_html_files, List.mem_cons, List.mem_append]
    constructor
    · rintro ⟨h1 | h1, h2⟩
      · have hp : p = [n] := by simpa using congrArg Prod.fst h1
        subst hp
        left
        have hn : is_html_file [n] =
            decide (pyLower (pySuffix n) ∈ SUPPORTED_EXTENSIONS) := rfl
        rw [hn] at h2
        simp [h2]
      · right; exact (ih p).mp ⟨h1, h2⟩
    · rintro (h | h)
      · split at h
        · rename_i hcond
          simp only [List.mem_singleton] at h
          subst h
          refine ⟨Or.inl rfl, ?_⟩
          have hn : is_html_file [n] =
              decide (pyLower (pySuffix n) ∈ SUPPORTED_EXTENSIONS) := rfl
          rw [hn]
          exact hcond
        · simp at h
      · obtain ⟨h1, h2⟩ := (ih p).mpr h
        exact ⟨Or.inr h1, h2⟩
  | dirCons n children rest ihc ihr =>
    intro p
    simp only [rglob, spec_html_files, List.mem_cons, List.mem_append,
      List.mem_map]
    constructor
    · rintro ⟨h1 | h1, h2⟩
      · exact absurd (congrArg Prod.snd h1) (by simp)
      · rcases h1 with h1 | h1
        · obtain ⟨⟨q, b⟩, hq, heq⟩ := h1
          have hb : b = true := by simpa using congrArg Prod.snd heq
          have hp : p = n :: q := by simpa using (congrArg Prod.fst heq).symm
          subst hb
          subst hp
          have hq0 : q ≠ [] := rglob_path_ne_nil children (q, true) hq
          rw [is_html_file_cons hq0] at h2
          exact Or.inl ⟨q, (ihc q).mp ⟨hq, h2⟩, rfl⟩
        · exact Or.inr ((ihr p).mp ⟨h1, h2⟩)
    · rintro (⟨q, hq, rfl⟩ | h)
      · obtain ⟨h1, h2⟩ := (ihc q).mpr hq
        have hq0 : q ≠ [] := rglob_path_ne_nil children (q, true) h1
        refine ⟨Or.inr (Or.inl ⟨(q, true), h1, rfl⟩), ?_⟩
        rw [is_html_file_cons hq0]
        exact h2
      · obtain ⟨h1, h2⟩ := (ihr p).mpr h
        exact ⟨Or.inr (Or.inr h1), h2⟩

/-- C4: discovery is exactly "regular files anywhere beneath the root
whose extension, lowercased, is `.html` or `.htm`": membership in
`find_html_files` (the `rglob` walk filtered by `is_file` and
`Config.is_html_file`) coincides with membership in the spec-side set
built by direct structural recursion; directories and files with any
other extension are excluded. -/
theorem claim_C4_discovery_set (root : FS) (p : List (List Char)) :
    p ∈ find_html_files root ↔ p ∈ spec_html_files root := by
  rw [← find_spec_mem root p]
  unfold find_html_files
  simp only [List.mem_map, List.mem_filter]
  constructor
  · rintro ⟨⟨q, b⟩, ⟨hmem, hf⟩, rfl⟩
    simp only [Bool.and_eq_true] at hf
    obtain ⟨hb, hh⟩ := hf
    cases b
    · simp at hb
    · exact ⟨hmem, hh⟩
  · rintro ⟨hmem, hh⟩
    exact ⟨(p, true), ⟨hmem, by simp [hh]⟩, rfl⟩

/-- C10: a regular file whose entire name is `.html` or `.htm` is never
discovered: `Path.suffix` is empty for such names (the only dot is at
index 0, and pathlib requires `0 < i`), so `Config.is_html_file`
rejects them — discovery is strictly a test on the suffix, not on the
raw string ending. -/
theorem claim_C10_dotfile_not_discovered :
    (∀ (root : FS) (p : List (List Char)),
      (pathName p = (".html").toList ∨ pathName p = (".htm").toList) →
      p ∉ find_html_files root) ∧
    pySuffix ((".html").toList) = [] ∧ pySuffix ((".htm").toList) = [] := by
  refine ⟨?_, by decide, by decide⟩
  intro root p h hmem
  have hhtml : is_html_file p = true := by
    unfold find_html_files at hmem
    simp only [List.mem_map, List.mem_filter] at hmem
    obtain ⟨⟨q, b⟩, ⟨_, hf⟩, rfl⟩ := hmem
    simp only [Bool.and_eq_true] at hf
    exact hf.2
  unfold is_html_file at hhtml
  rcases h with h | h <;> rw [h] at hhtml <;> exact absurd hhtml (by decide)

/-- Witness for C10: in a tree containing both a `.html` dotfile and a
regular `a.html`, the path of the dotfile is not discovered. -/
theorem claim_C10_witness :
    (pathName [(".html").toList] = (".html").toList ∨
      pathName [(".html").toList] = (".htm").toList) ∧
    [(".html").toList] ∉
      find_html_files
        (FS.fileCons ((".html").toList)
          (FS.fileCons (("a.html").toList) FS.nilFS)) :=
  ⟨Or.inl rfl, claim_C10_dotfile_not_discovered.1 _ _ (Or.inl rfl)⟩

theorem pyLower_take (n : Nat) (l : List Char) :
    pyLower (List.take n l) = List.take n (pyLower l) := by
  simp [pyLower, List.map_take]

theorem strFind_some {pat l : List Char} {i : Nat}
    (h : strFind pat l = some i) : pat <+: List.drop i l := by
  induction l generalizing i with
  | nil =>
    unfold strFind at h
    split at h
    · rename_i hp
      simp only [Option.some.injEq] at h
      subst h
      simpa using List.isPrefixOf_iff_prefix.mp hp
    · cases h
  | cons c rest ih =>
    unfold strFind at h
    split at h
    · rename_i hp
      simp only [Option.some.injEq] at h
      subst h
      simpa using List.isPrefixOf_iff_prefix.mp hp
    · cases hf : strFind pat rest with
      | none => rw [hf] at h; simp at h
      | some j =>
        rw [hf] at h
        simp only [Option.map_some', Option.some.injEq] at h
        subst h
        simpa using ih hf

/-- C8: the print-stylesheet injection follows the three-way rule.  If a
case-insensitive `<head>` exists, the stylesheet block is inserted
immediately after the (first) occurrence; else if a case-insensitive
`<html>` exists, a synthesized `<head>…</head>` around the stylesheet is
inserted immediately after it; else the entire sanitized content is
wrapped in `<html><head>{css}</head><body>…</body></html>`. -/
theorem claim_C8_stylesheet_injection (s : List Char) :
    ((∃ i, strFind (("<head>").toList) (pyLower s) = some i) →
      ∃ pre post, s = pre ++ post ∧ (("<head>").toList) <:+ pyLower pre ∧
        enhance_inject s = pre ++ pdf_css ++ post) ∧
    (strFind (("<head>").toList) (pyLower s) = none →
      (∃ i, strFind (("<html>").toList) (pyLower s) = some i) →
      ∃ pre post, s = pre ++ post ∧ (("<html>").toList) <:+ pyLower pre ∧
        enhance_inject s =
          pre ++ ("<head>").toList ++ pdf_css ++ ("</head>").toList ++ post) ∧
    (strFind (("<head>").toList) (pyLower s) = none →
      strFind (("<html>").toList) (pyLower s) = none →
      enhance_inject s =
        ("<html><head>").toList ++ pdf_css ++ ("</head><body>").toList ++ s ++
          ("</body></html>").toList) := by
  refine ⟨?_, ?_, ?_⟩
  · rintro ⟨i, hi⟩
    refine ⟨List.take (i + 6) s, List.drop (i + 6) s,
      (List.take_append_drop _ _).symm, ?_, ?_⟩
    · have hp := strFind_some hi
      have heq' : List.take 6 (List.drop i (pyLower s)) = ("<head>").toList :=
        (List.prefix_iff_eq_take.mp hp).symm
      have h1 : pyLower (List.take (i + 6) s) =
          List.take i (pyLower s) ++ ("<head>").toList := by
        rw [pyLower_take, List.take_add, heq']
      rw [h1]
      exact List.suffix_append _ _
    · simp only [enhance_inject, hi]
  · intro hnone
    rintro ⟨i, hi⟩
    refine ⟨List.take (i + 6) s, List.drop (i + 6) s,
      (List.take_append_drop _ _).symm, ?_, ?_⟩
    · have hp := strFind_some hi
      have heq' : List.take 6 (List.drop i (pyLower s)) = ("<html>").toList :=
        (List.prefix_iff_eq_take.mp hp).symm
      have h1 : pyLower (List.take (i + 6) s) =
          List.take i (pyLower s) ++ ("<html>").toList := by
        rw [pyLower_take, List.take_add, heq']
      rw [h1]
      exact List.suffix_append _ _
    · simp only [enhance_inject, hnone, hi]
  · intro h1 h2
    simp only [enhance_inject, h1, h2]

/-- Witness for C8 at a concrete document with an uppercase `<HEad>`
tag: the hypothesis of the first injection case holds and the stylesheet
lands immediately after the head tag. -/
theorem claim_C8_witness :
    (∃ i, strFind (("<head>").toList)
        (pyLower (("ab<HEad>cd").toList)) = some i) ∧
    (∃ pre post, ("ab<HEad>cd").toList = pre ++ post ∧
      (("<head>").toList) <:+ pyLower pre ∧
      enhance_inject (("ab<HEad>cd").toList) = pre ++ pdf_css ++ post) :=
  ⟨⟨2, by decide⟩,
    (claim_C8_stylesheet_injection (("ab<HEad>cd").toList)).1 ⟨2, by decide⟩⟩

/-! ## Inert characters and matcher-failure lemmas (for C6/C7) -/

/-- Lowercase letters and digits: content characters that are inert for
every pattern of the sanitizer. -/
def lalChars : List Char :=
  ("abcdefghijklmnopqrstuvwxyz0123456789").toList

/-- A list of inert content characters. -/
def Lal (l : List Char) : Prop := ∀ c ∈ l, c ∈ lalChars

instance (l : List Char) : Decidable (Lal l) :=
  inferInstanceAs (Decidable (∀ c ∈ l, c ∈ lalChars))

theorem lal_facts : ∀ c ∈ lalChars,
    isPySpace c = false ∧ isQuote c = false ∧ c.toLower = c ∧
      c ≠ '<' ∧ c ≠ '>' ∧ c ≠ '=' ∧ c ≠ '\n' := by decide

theorem ciHead_cons_ne {p c : Char} {ps cs : List Char}
    (h : p.toLower ≠ c.toLower) : ciHead (p :: ps) (c :: cs) = false := by
  unfold ciHead
  have : (p.toLower == c.toLower) = false := by
    simpa using h
  rw [this]
  rfl

theorem ciHead_self_append (pat r : List Char) :
    ciHead pat (pat ++ r) = true := by
  induction pat with
  | nil => rfl
  | cons p ps ih => simp [ciHead, ih]

theorem ciHead_lt_lal {ps cs : List Char} {c : Char} (hc : c ∈ lalChars) :
    ciHead ('<' :: ps) (c :: cs) = false := by
  apply ciHead_cons_ne
  have h := lal_facts c hc
  rw [h.2.2.1]
  show '<' ≠ c
  exact fun he => h.2.2.2.1 he.symm

theorem delM_none {m : List Char → Option Nat} {l : List Char}
    (h : m l = none) : delM m l = none := by
  simp [delM, h]

theorem delM_some {m : List Char → Option Nat} {l : List Char} {n : Nat}
    (h : m l = some n) : delM m l = some (n, []) := by
  simp [delM, h]

theorem matchTagBlock_none_lal {openT closeT : List Char} {x : Char}
    (hT : ∃ ps, openT = '<' :: ps) (hx : x ∈ lalChars) (xs : List Char) :
    matchTagBlock openT closeT (x :: xs) = none := by
  obtain ⟨ps, rfl⟩ := hT
  simp [matchTagBlock, ciHead_lt_lal hx]

theorem matchAttr_none_not_space {name : List Char} {x : Char}
    (h : isPySpace x = false) (xs : List Char) :
    matchAttr name (x :: xs) = none := by
  simp [matchAttr, h]

theorem matchWildAttr_none_not_space {pre : List Char} {x : Char}
    (h : isPySpace x = false) (xs : List Char) :
    matchWildAttr pre (x :: xs) = none := by
  simp [matchWildAttr, h]

theorem matchLink_none_lal {x : Char} (hx : x ∈ lalChars) (xs : List Char) :
    matchLink (x :: xs) = none := by
  have he : (("<link").toList : List Char) = '<' :: ("link").toList := rfl
  simp [matchLink, he, ciHead_lt_lal hx]

theorem wsRun_none_not_space {x : Char} (h : isPySpace x = false)
    (xs : List Char) : wsRun (x :: xs) = none := by
  simp [wsRun, h]

theorem gtWsLt_none_ne {x : Char} (h : x ≠ '>') (xs : List Char) :
    gtWsLt (x :: xs) = none := by
  simp [gtWsLt, h]

theorem ltWsDel_none_ne {x : Char} (h : x ≠ '<') (xs : List Char) :
    ltWsDel (x :: xs) = none := by
  simp [ltWsDel, h]

theorem wsGtDel_none_not_space {x : Char} (h : isPySpace x = false)
    (xs : List Char) : wsGtDel (x :: xs) = none := by
  simp [wsGtDel, h]

/-- Suffix positions as drops: skip a segment when the matcher fails at
each of its positions (handy for concrete segments via `interval_cases`). -/
theorem scanRepl_append_skip_drop {m : List Char → Option (Nat × List Char)}
    (a rest : List Char)
    (h : ∀ i, i < a.length → m (List.drop i a ++ rest) = none) :
    scanRepl m (a ++ rest) = a ++ scanRepl m rest := by
  apply scanRepl_append_skip
  intro x l₂ hs
  obtain ⟨pre, hpre⟩ := hs
  have hlen : pre.length < a.length := by
    rw [← hpre]
    simp
  have hdrop : List.drop pre.length a = x :: l₂ := by
    rw [← hpre]
    exact List.drop_left pre (x :: l₂)
  have := h pre.length hlen
  rw [hdrop] at this
  simpa using this

/-- Skip a segment whose characters all make the matcher fail at their
position. -/
theorem scanRepl_append_skip_mem {m : List Char → Option (Nat × List Char)}
    (a rest : List Char)
    (h : ∀ x, x ∈ a → ∀ xs, m (x :: xs) = none) :
    scanRepl m (a ++ rest) = a ++ scanRepl m rest := by
  apply scanRepl_append_skip
  intro x l₂ hs
  exact h x (hs.subset (List.mem_cons_self _ _)) (l₂ ++ rest)

theorem scanRepl_id_mem {m : List Char → Option (Nat × List Char)}
    (l : List Char) (h : ∀ x, x ∈ l → ∀ xs, m (x :: xs) = none) :
    scanRepl m l = l := by
  apply scanRepl_id
  intro x l₂ hs
  exact h x (hs.subset (List.mem_cons_self _ _)) l₂

theorem takeWhile_append_all {p : Char → Bool} (v : List Char)
    (hv : ∀ c ∈ v, p c = true) (r : List Char) :
    List.takeWhile p (v ++ r) = v ++ List.takeWhile p r := by
  induction v with
  | nil => simp
  | cons c cs ih =>
    rw [List.cons_append, List.takeWhile_cons, hv c (by simp)]
    rw [ih (fun c hc => hv c (by simp [hc]))]
    rfl

theorem dropWhile_append_all {p : Char → Bool} (v : List Char)
    (hv : ∀ c ∈ v, p c = true) (r : List Char) :
    List.dropWhile p (v ++ r) = List.dropWhile p r := by
  induction v with
  | nil => simp
  | cons c cs ih =>
    rw [List.cons_append, List.dropWhile_cons, hv c (by simp)]
    simp only [if_true]
    exact ih (fun c hc => hv c (by simp [hc]))

theorem takeWhile_eq_self_all {p : Char → Bool} (v : List Char)
    (hv : ∀ c ∈ v, p c = true) : List.takeWhile p v = v := by
  have := takeWhile_append_all v hv []
  simpa using this

theorem findCloser_cons (close : List Char) (c : Char) (rest : List Char) :
    findCloser close (c :: rest) =
      if ciHead close (c :: rest) then some 0
      else (findCloser close rest).map (· + 1) := rfl

theorem findCloser_append_lt (s : List Char) (hs : Lal s)
    {ps : List Char} (r : List Char) :
    findCloser ('<' :: ps) (s ++ r) =
      (findCloser ('<' :: ps) r).map (· + s.length) := by
  induction s with
  | nil => cases h : findCloser ('<' :: ps) r <;> simp [h]
  | cons x s' ih =>
    rw [List.cons_append, findCloser_cons]
    rw [ciHead_lt_lal (hs x (by simp))]
    simp only [Bool.false_eq_true, if_false]
    rw [ih (fun c hc => hs c (by simp [hc]))]
    cases h : findCloser ('<' :: ps) r with
    | none => simp [h]
    | some j =>
      simp only [h, Option.map_some', List.length_cons]
      congr 1

theorem matchAttrTail_nil : matchAttrTail [] = none := rfl

theorem matchAttrTail_none_hd {x : Char} (h1 : isPySpace x = false)
    (h2 : x ≠ '=') (xs : List Char) : matchAttrTail (x :: xs) = none := by
  simp [matchAttrTail, List.dropWhile_cons, h1, h2]

theorem matchAttrTail_at (v : List Char) (hv : Lal v) (r : List Char) :
    matchAttrTail ('=' :: ('"' :: (v ++ ('"' :: r)))) = some (v.length + 3) := by
  have e1 : isPySpace '=' = false := rfl
  have e2 : isPySpace '"' = false := rfl
  have e3 : isQuote '"' = true := rfl
  have hq : ∀ c ∈ v, (fun c => !(isQuote c)) c = true := by
    intro c hc
    have := (lal_facts c (hv c hc)).2.1
    simp [this]
  have htake : List.takeWhile (fun c => !(isQuote c)) (v ++ ('"' :: r)) = v := by
    rw [takeWhile_append_all v hq]
    simp [List.takeWhile_cons, e3]
  have hdrop : List.dropWhile (fun c => !(isQuote c)) (v ++ ('"' :: r)) =
      '"' :: r := by
    rw [dropWhile_append_all v hq]
    simp [List.dropWhile_cons, e3]
  simp only [matchAttrTail, List.dropWhile_cons, List.takeWhile_cons, e1, e2,
    Bool.false_eq_true, if_false, htake, hdrop, e3, if_true]
  simp
  omega

theorem matchAttrTail_none_drop (Q : List Char)
    (h : ∀ x ∈ Q, isPySpace x = false ∧ x ≠ '=') (K : Nat) :
    matchAttrTail (List.drop K Q) = none := by
  cases hd : List.drop K Q with
  | nil => rfl
  | cons x xs =>
    have hx : x ∈ Q := List.drop_subset K Q (by rw [hd]; exact List.mem_cons_self x xs)
    exact matchAttrTail_none_hd (h x hx).1 (h x hx).2 xs

theorem tryFrom_at {l : List Char} {k t : Nat}
    (hk : matchAttrTail (List.drop k l) = some t) :
    tryFrom l k = some (k + t) := by
  cases k with
  | zero =>
    rw [List.drop_zero] at hk
    simp [tryFrom, hk]
  | succ K =>
    simp [tryFrom, hk]

theorem tryFrom_high {l : List Char} (k : Nat) :
    ∀ L, k ≤ L →
      (∀ K, k < K → K ≤ L → matchAttrTail (List.drop K l) = none) →
      tryFrom l L = tryFrom l k := by
  intro L
  induction L with
  | zero =>
    intro hk _
    obtain rfl := Nat.le_zero.mp hk
    rfl
  | succ L ih =>
    intro hk hnone
    rcases Nat.eq_or_lt_of_le hk with heq | hlt
    · rw [heq]
    · have h1 : matchAttrTail (List.drop (L + 1) l) = none :=
        hnone (L + 1) hlt le_rfl
      simp only [tryFrom, h1]
      exact ih (Nat.lt_succ_iff.mp hlt)
        (fun K hk1 hk2 => hnone K hk1 (Nat.le_succ_of_le hk2))

theorem matchAttr_at (name v : List Char) (hv : Lal v) (r : List Char) :
    matchAttr name (' ' :: (name ++ ('=' :: ('"' :: (v ++ ('"' :: r)))))) =
      some (1 + name.length + (v.length + 3)) := by
  have hcond : (isPySpace ' ' &&
      ciHead name (name ++ ('=' :: ('"' :: (v ++ ('"' :: r)))))) = true := by
    rw [ciHead_self_append]
    rfl
  simp only [matchAttr, hcond, if_true, List.drop_left,
    matchAttrTail_at v hv r]

theorem matchWildAttr_at (pre w v : List Char) (hw : Lal w) (hv : Lal v)
    (r : List Char) (hr : ∀ x ∈ r, x ≠ '\n' ∧ isPySpace x = false ∧ x ≠ '=') :
    matchWildAttr pre
      (' ' :: (pre ++ (w ++ ('=' :: ('"' :: (v ++ ('"' :: r))))))) =
      some (1 + pre.length + (w.length + (v.length + 3))) := by
  set T : List Char := w ++ ('=' :: ('"' :: (v ++ ('"' :: r)))) with hT
  have hcond : (isPySpace ' ' && ciHead pre (pre ++ T)) = true := by
    rw [ciHead_self_append]
    rfl
  have hnl : ∀ x ∈ T, (x != '\n') = true := by
    intro x hx
    rw [hT] at hx
    simp only [List.mem_append, List.mem_cons] at hx
    have hne : x ≠ '\n' := by
      rcases hx with hx | rfl | rfl | hx | rfl | hx
      · exact (lal_facts x (hw x hx)).2.2.2.2.2.2
      · decide
      · decide
      · exact (lal_facts x (hv x hx)).2.2.2.2.2.2
      · decide
      · exact (hr x hx).1
    simp [hne]
  have hmax : List.takeWhile (· != '\n') T = T := takeWhile_eq_self_all T hnl
  have hQ : ∀ x ∈ ('"' :: (v ++ ('"' :: r))),
      isPySpace x = false ∧ x ≠ '=' := by
    intro x hx
    simp only [List.mem_cons, List.mem_append] at hx
    rcases hx with rfl | hx | rfl | hx
    · exact ⟨rfl, by decide⟩
    · have h := lal_facts x (hv x hx)
      exact ⟨h.1, h.2.2.2.2.2.1⟩
    · exact ⟨rfl, by decide⟩
    · exact ⟨(hr x hx).2.1, (hr x hx).2.2⟩
  have hdropw : List.drop w.length T = '=' :: ('"' :: (v ++ ('"' :: r))) := by
    rw [hT]
    exact List.drop_left w _
  have hhigh : tryFrom T T.length = tryFrom T w.length := by
    apply tryFrom_high w.length T.length
    · rw [hT]
      simp
    · intro K hk1 _
      obtain ⟨d, rfl⟩ : ∃ d, K = w.length + (d + 1) :=
        ⟨K - w.length - 1, by omega⟩
      rw [← List.drop_drop, hdropw, List.drop_succ_cons]
      exact matchAttrTail_none_drop _ hQ d
  have hat : tryFrom T w.length = some (w.length + (v.length + 3)) :=
    tryFrom_at (by rw [hdropw]; exact matchAttrTail_at v hv r)
  simp only [matchWildAttr, hcond, if_true, List.drop_left, hmax, hhigh, hat]

/-- Whitespace-free content (no position can trigger an attribute
pattern). -/
def NoSp (l : List Char) : Prop := ∀ x ∈ l, isPySpace x = false

instance (l : List Char) : Decidable (NoSp l) :=
  inferInstanceAs (Decidable (∀ x ∈ l, isPySpace x = false))

theorem NoSp_of_lal {l : List Char} (h : Lal l) : NoSp l :=
  fun x hx => (lal_facts x (h x hx)).1

theorem scanRepl_id_one_space (m : List Char → Option (Nat × List Char))
    (A R : List Char)
    (hA : ∀ x ∈ A, ∀ xs, m (x :: xs) = none)
    (hsp : m (' ' :: R) = none)
    (hR : ∀ x ∈ R, ∀ xs, m (x :: xs) = none) :
    scanRepl m (A ++ (' ' :: R)) = A ++ (' ' :: R) := by
  rw [scanRepl_append_skip_mem A _ hA, scanRepl_cons_none hsp,
    scanRepl_id_mem R hR]

theorem scanRepl_attr_removes (name A v r : List Char)
    (hA : NoSp A) (hv : Lal v) :
    scanRepl (delM (matchAttr name))
      (A ++ (' ' :: (name ++ ('=' :: ('"' :: (v ++ ('"' :: r))))))) =
      A ++ scanRepl (delM (matchAttr name)) r := by
  rw [scanRepl_append_skip_mem A _
    (fun x hx xs => delM_none (matchAttr_none_not_space (hA x hx) xs))]
  congr 1
  have hm : delM (matchAttr name)
      (' ' :: (name ++ ('=' :: ('"' :: (v ++ ('"' :: r)))))) =
      some (1 + name.length + (v.length + 3), []) :=
    delM_some (matchAttr_at name v hv r)
  rw [scanRepl_cons_some hm]
  have hsplit : name ++ ('=' :: ('"' :: (v ++ ('"' :: r)))) =
      (name ++ ('=' :: ('"' :: (v ++ ['"'])))) ++ r := by
    simp
  have hdrop : List.drop (1 + name.length + (v.length + 3) - 1)
      (name ++ ('=' :: ('"' :: (v ++ ('"' :: r))))) = r := by
    rw [hsplit]
    apply List.drop_left'
    simp
    omega
  rw [hdrop]
  simp

theorem scanRepl_wild_removes (pre A w v r : List Char)
    (hA : NoSp A) (hw : Lal w) (hv : Lal v)
    (hr : ∀ x ∈ r, x ≠ '\n' ∧ isPySpace x = false ∧ x ≠ '=') :
    scanRepl (delM (matchWildAttr pre))
      (A ++ (' ' :: (pre ++ (w ++ ('=' :: ('"' :: (v ++ ('"' :: r)))))))) =
      A ++ scanRepl (delM (matchWildAttr pre)) r := by
  rw [scanRepl_append_skip_mem A _
    (fun x hx xs => delM_none (matchWildAttr_none_not_space (hA x hx) xs))]
  congr 1
  have hm : delM (matchWildAttr pre)
      (' ' :: (pre ++ (w ++ ('=' :: ('"' :: (v ++ ('"' :: r))))))) =
      some (1 + pre.length + (w.length + (v.length + 3)), []) :=
    delM_some (matchWildAttr_at pre w v hw hv r hr)
  rw [scanRepl_cons_some hm]
  have hsplit : pre ++ (w ++ ('=' :: ('"' :: (v ++ ('"' :: r))))) =
      (pre ++ (w ++ ('=' :: ('"' :: (v ++ ['"']))))) ++ r := by
    simp
  have hdrop : List.drop (1 + pre.length + (w.length + (v.length + 3)) - 1)
      (pre ++ (w ++ ('=' :: ('"' :: (v ++ ('"' :: r)))))) = r := by
    rw [hsplit]
    apply List.drop_left'
    simp
    omega
  rw [hdrop]
  simp

theorem NoSp_append {a b : List Char} (ha : NoSp a) (hb : NoSp b) :
    NoSp (a ++ b) := by
  intro x hx
  rcases List.mem_append.mp hx with hx | hx
  · exact ha x hx
  · exact hb x hx

theorem NoSp_cons {c : Char} {l : List Char} (hc : isPySpace c = false)
    (h : NoSp l) : NoSp (c :: l) := by
  intro x hx
  rcases List.mem_cons.mp hx with rfl | hx
  · exact hc
  · exact h x hx

theorem attr_none_of_noSp {name l : List Char} (h : NoSp l) :
    ∀ x ∈ l, ∀ xs, delM (matchAttr name) (x :: xs) = none :=
  fun x hx xs => delM_none (matchAttr_none_not_space (h x hx) xs)

theorem wild_none_of_noSp {pre l : List Char} (h : NoSp l) :
    ∀ x ∈ l, ∀ xs, delM (matchWildAttr pre) (x :: xs) = none :=
  fun x hx xs => delM_none (matchWildAttr_none_not_space (h x hx) xs)

theorem step5_removes_id (v : List Char) (hv : Lal v) :
    sanitize_step5 (("<div id=\"").toList ++ v ++ ("\">").toList) =
      ("<div>").toList := by
  have hshape : ("<div id=\"").toList ++ v ++ ("\">").toList =
      ("<div").toList ++
        (' ' :: (("id").toList ++
          ('=' :: ('"' :: (v ++ ('"' :: ('>' :: []))))))) := rfl
  rw [hshape]
  unfold sanitize_step5
  rw [scanRepl_attr_removes (("id").toList) (("<div").toList) v ('>' :: [])
    (by decide) hv]
  rw [show scanRepl (delM (matchAttr (("id").toList))) ('>' :: []) = '>' :: []
    from rfl]
  decide

theorem step5_removes_data (w v : List Char) (hw : Lal w) (hv : Lal v) :
    sanitize_step5
      (("<div data-").toList ++ w ++ ("=\"").toList ++ v ++ ("\">").toList) =
      ("<div>").toList := by
  have hshape :
      ("<div data-").toList ++ w ++ ("=\"").toList ++ v ++ ("\">").toList =
      ("<div").toList ++
        (' ' :: (("data-").toList ++
          (w ++ ('=' :: ('"' :: (v ++ ('"' :: ('>' :: [])))))))) := by
    simp only [List.append_assoc]
    rfl
  have hR : NoSp (("data-").toList ++
      (w ++ ('=' :: ('"' :: (v ++ ('"' :: ('>' :: []))))))) :=
    NoSp_append (by decide)
      (NoSp_append (NoSp_of_lal hw)
        (NoSp_cons rfl (NoSp_cons rfl
          (NoSp_append (NoSp_of_lal hv) (by decide)))))
  rw [hshape]
  unfold sanitize_step5
  rw [scanRepl_id_one_space (delM (matchAttr (("id").toList)))
    (("<div").toList)
    (("data-").toList ++ (w ++ ('=' :: ('"' :: (v ++ ('"' :: ('>' :: [])))))))
    (attr_none_of_noSp (by decide)) rfl (attr_none_of_noSp hR)]
  rw [scanRepl_wild_removes (("data-").toList) (("<div").toList) w v
    ('>' :: []) (by decide) hw hv (by decide)]
  rw [show scanRepl (delM (matchWildAttr (("data-").toList))) ('>' :: []) =
    '>' :: [] from rfl]
  decide

theorem step5_removes_aria (w v : List Char) (hw : Lal w) (hv : Lal v) :
    sanitize_step5
      (("<div aria-").toList ++ w ++ ("=\"").toList ++ v ++ ("\">").toList) =
      ("<div>").toList := by
  have hshape :
      ("<div aria-").toList ++ w ++ ("=\"").toList ++ v ++ ("\">").toList =
      ("<div").toList ++
        (' ' :: (("aria-").toList ++
          (w ++ ('=' :: ('"' :: (v ++ ('"' :: ('>' :: [])))))))) := by
    simp only [List.append_assoc]
    rfl
  have hR : NoSp (("aria-").toList ++
      (w ++ ('=' :: ('"' :: (v ++ ('"' :: ('>' :: []))))))) :=
    NoSp_append (by decide)
      (NoSp_append (NoSp_of_lal hw)
        (NoSp_cons rfl (NoSp_cons rfl
          (NoSp_append (NoSp_of_lal hv) (by decide)))))
  rw [hshape]
  unfold sanitize_step5
  rw [scanRepl_id_one_space (delM (matchAttr (("id").toList)))
    (("<div").toList)
    (("aria-").toList ++ (w ++ ('=' :: ('"' :: (v ++ ('"' :: ('>' :: [])))))))
    (attr_none_of_noSp (by decide)) rfl (attr_none_of_noSp hR)]
  rw [scanRepl_id_one_space (delM (matchWildAttr (("data-").toList)))
    (("<div").toList)
    (("aria-").toList ++ (w ++ ('=' :: ('"' :: (v ++ ('"' :: ('>' :: [])))))))
    (wild_none_of_noSp (by decide)) rfl (wild_none_of_noSp hR)]
  rw [scanRepl_wild_removes (("aria-").toList) (("<div").toList) w v
    ('>' :: []) (by decide) hw hv (by decide)]
  rw [show scanRepl (delM (matchWildAttr (("aria-").toList))) ('>' :: []) =
    '>' :: [] from rfl]
  decide

theorem step5_removes_role (v : List Char) (hv : Lal v) :
    sanitize_step5 (("<div role=\"").toList ++ v ++ ("\">").toList) =
      ("<div>").toList := by
  have hshape : ("<div role=\"").toList ++ v ++ ("\">").toList =
      ("<div").toList ++
        (' ' :: (("role").toList ++
          ('=' :: ('"' :: (v ++ ('"' :: ('>' :: []))))))) := rfl
  have hR : NoSp (("role").toList ++
      ('=' :: ('"' :: (v ++ ('"' :: ('>' :: [])))))) :=
    NoSp_append (by decide)
      (NoSp_cons rfl (NoSp_cons rfl
        (NoSp_append (NoSp_of_lal hv) (by decide))))
  rw [hshape]
  unfold sanitize_step5
  rw [scanRepl_id_one_space (delM (matchAttr (("id").toList)))
    (("<div").toList)
    (("role").toList ++ ('=' :: ('"' :: (v ++ ('"' :: ('>' :: []))))))
    (attr_none_of_noSp (by decide)) rfl (attr_none_of_noSp hR)]
  rw [scanRepl_id_one_space (delM (matchWildAttr (("data-").toList)))
    (("<div").toList)
    (("role").toList ++ ('=' :: ('"' :: (v ++ ('"' :: ('>' :: []))))))
    (wild_none_of_noSp (by decide)) rfl (wild_none_of_noSp hR)]
  rw [scanRepl_id_one_space (delM (matchWildAttr (("aria-").toList)))
    (("<div").toList)
    (("role").toList ++ ('=' :: ('"' :: (v ++ ('"' :: ('>' :: []))))))
    (wild_none_of_noSp (by decide)) rfl (wild_none_of_noSp hR)]
  rw [scanRepl_attr_removes (("role").toList) (("<div").toList) v ('>' :: [])
    (by decide) hv]
  rw [show scanRepl (delM (matchAttr (("role").toList))) ('>' :: []) =
    '>' :: [] from rfl]
  rfl

/-- C7 counterexample: step 5 does NOT remove only the listed attributes.
On `<div data-a="1" href="x">` the greedy `.*` of the `data-.*` pattern
extends the match from the `data-a` attribute through the following
`href` attribute up to its closing quote, so step 5 yields `<div>`: the
`href` attribute — not in the removal list — is removed too, refuting
"removes nothing else from the document". -/
theorem claim_C7_counterexample :
    containsList (("href").toList)
        (("<div data-a=\"1\" href=\"x\">").toList) = true ∧
    sanitize_step5 (("<div data-a=\"1\" href=\"x\">").toList) =
      ("<div>").toList ∧
    containsList (("href").toList)
        (sanitize_step5 (("<div data-a=\"1\" href=\"x\">").toList)) = false := by
  refine ⟨by decide, by decide, by decide⟩

/-- C7 amended: step 5 removes every quoted-value occurrence of the
listed attributes — `id`, `data-*`, `aria-*` and `role` are each deleted
in isolation (shown on attribute-bearing tags with alphanumeric names
and values) — but because the `data-.*` and `aria-.*` patterns contain a
greedy `.*`, a single match may extend past the attribute through later
quoted attributes on the same line, so step 5 can also remove attributes
outside the list, as on `<div data-a="1" href="x">`, which becomes
`<div>`. -/
theorem claim_C7_amended_step5 :
    (∀ v, Lal v →
      sanitize_step5 (("<div id=\"").toList ++ v ++ ("\">").toList) =
        ("<div>").toList) ∧
    (∀ w v, Lal w → Lal v →
      sanitize_step5
          (("<div data-").toList ++ w ++ ("=\"").toList ++ v ++
            ("\">").toList) = ("<div>").toList) ∧
    (∀ w v, Lal w → Lal v →
      sanitize_step5
          (("<div aria-").toList ++ w ++ ("=\"").toList ++ v ++
            ("\">").toList) = ("<div>").toList) ∧
    (∀ v, Lal v →
      sanitize_step5 (("<div role=\"").toList ++ v ++ ("\">").toList) =
        ("<div>").toList) ∧
    sanitize_step5 (("<div data-a=\"1\" href=\"x\">").toList) =
      ("<div>").toList :=
  ⟨step5_removes_id, step5_removes_data, step5_removes_aria,
    step5_removes_role, by decide⟩

/-- Witness for C7 amended at concrete attribute names and values. -/
theorem claim_C7_witness :
    Lal (("x").toList) ∧ Lal (("n").toList) ∧
    sanitize_step5
        (("<div id=\"").toList ++ ("x").toList ++ ("\">").toList) =
      ("<div>").toList ∧
    sanitize_step5
        (("<div data-").toList ++ ("n").toList ++ ("=\"").toList ++
          ("x").toList ++ ("\">").toList) = ("<div>").toList :=
  ⟨by decide, by decide,
    claim_C7_amended_step5.1 (("x").toList) (by decide),
    claim_C7_amended_step5.2.1 (("n").toList) (("x").toList) (by decide)
      (by decide)⟩

theorem Lal_append {a b : List Char} (ha : Lal a) (hb : Lal b) :
    Lal (a ++ b) := by
  intro x hx
  rcases List.mem_append.mp hx with hx | hx
  · exact ha x hx
  · exact hb x hx

theorem findCloser_append_hd (close : List Char) (hcl : close.head? = some '<')
    (s : List Char) (hs : Lal s) (r : List Char) :
    findCloser close (s ++ r) = (findCloser close r).map (· + s.length) := by
  cases close with
  | nil => simp at hcl
  | cons c0 cs =>
    have hc0 : c0 = '<' := by simpa using hcl
    subst hc0
    exact findCloser_append_lt s hs r

theorem matchTagBlock_style_at (s r : List Char) (hs : Lal s) :
    matchTagBlock (("<style").toList) (("</style>").toList)
      (("<style>").toList ++ (s ++ (("</style>").toList ++ r))) =
      some (s.length + 15) := by
  have h0 : matchTagBlock (("<style").toList) (("</style>").toList)
      (("<style>").toList ++ (s ++ (("</style>").toList ++ r))) =
      (match findCloser (("</style>").toList)
          (s ++ (("</style>").toList ++ r)) with
       | some j => some (6 + 0 + 1 + j + 8)
       | none => none) := rfl
  rw [h0, findCloser_append_hd (("</style>").toList) rfl s hs _]
  rw [show findCloser (("</style>").toList) ((("</style>").toList ++ r)) =
    some 0 from rfl]
  simp only [Option.map_some']
  congr 1
  omega

theorem matchTagBlock_script_at (t r : List Char) (ht : Lal t) :
    matchTagBlock (("<script").toList) (("</script>").toList)
      (("<script>").toList ++ (t ++ (("</script>").toList ++ r))) =
      some (t.length + 17) := by
  have h0 : matchTagBlock (("<script").toList) (("</script>").toList)
      (("<script>").toList ++ (t ++ (("</script>").toList ++ r))) =
      (match findCloser (("</script>").toList)
          (t ++ (("</script>").toList ++ r)) with
       | some j => some (7 + 0 + 1 + j + 9)
       | none => none) := rfl
  rw [h0, findCloser_append_hd (("</script>").toList) rfl t ht _]
  rw [show findCloser (("</script>").toList) ((("</script>").toList ++ r)) =
    some 0 from rfl]
  simp only [Option.map_some']
  congr 1
  omega

/-- A scan that cannot fire on inert characters nor anywhere at a
`<script>…</script>` region leaves the whole region unchanged. -/
theorem scanRepl_skips_script_region (m : List Char → Option (Nat × List Char))
    (b t c : List Char) (hb : Lal b) (ht : Lal t) (hc : Lal c)
    (hlal : ∀ x ∈ lalChars, ∀ xs, m (x :: xs) = none)
    (hSC : ∀ R, m ('<' :: ((("script>").toList) ++ R)) = none)
    (hSCin : ∀ i R, i < 7 → m (List.drop i (("script>").toList) ++ R) = none)
    (hSCc : ∀ R, m ('<' :: ((("/script>").toList) ++ R)) = none)
    (hSCcin : ∀ i R, i < 8 → m (List.drop i (("/script>").toList) ++ R) = none) :
    scanRepl m
        (b ++ (("<script>").toList ++ (t ++ (("</script>").toList ++ c)))) =
      b ++ (("<script>").toList ++ (t ++ (("</script>").toList ++ c))) := by
  rw [scanRepl_append_skip_mem b _ (fun x hx xs => hlal x (hb x hx) xs)]
  congr 1
  rw [show (("<script>").toList : List Char) ++
      (t ++ (("</script>").toList ++ c)) =
    '<' :: ((("script>").toList) ++ (t ++ (("</script>").toList ++ c)))
    from rfl]
  rw [scanRepl_cons_none (hSC _)]
  congr 1
  rw [scanRepl_append_skip_drop (("script>").toList) _ (by
    intro i hi
    have h7 : (("script>").toList : List Char).length = 7 := rfl
    rw [h7] at hi
    exact hSCin i _ hi)]
  congr 1
  rw [scanRepl_append_skip_mem t _ (fun x hx xs => hlal x (ht x hx) xs)]
  congr 1
  rw [show (("</script>").toList : List Char) ++ c =
    '<' :: ((("/script>").toList) ++ c) from rfl]
  rw [scanRepl_cons_none (hSCc _)]
  congr 1
  rw [scanRepl_append_skip_drop (("/script>").toList) _ (by
    intro i hi
    have h8 : (("/script>").toList : List Char).length = 8 := rfl
    rw [h8] at hi
    exact hSCcin i _ hi)]
  congr 1
  exact scanRepl_id_mem c (fun x hx xs => hlal x (hc x hx) xs)

theorem scanRepl_styleDel_block (a s X : List Char) (ha : Lal a) (hs : Lal s) :
    scanRepl (delM (matchTagBlock (("<style").toList) (("</style>").toList)))
        (a ++ (("<style>").toList ++ (s ++ (("</style>").toList ++ X)))) =
      a ++ scanRepl
        (delM (matchTagBlock (("<style").toList) (("</style>").toList))) X := by
  rw [scanRepl_append_skip_mem a _ (fun x hx xs =>
    delM_none (@matchTagBlock_none_lal (("<style").toList)
      (("</style>").toList) x ⟨("style").toList, rfl⟩ (ha x hx) xs))]
  congr 1
  have hm : delM (matchTagBlock (("<style").toList) (("</style>").toList))
      ('<' :: ((("style>").toList) ++ (s ++ (("</style>").toList ++ X)))) =
      some (s.length + 15, []) := by
    rw [show ('<' :: ((("style>").toList) ++ (s ++ (("</style>").toList ++ X)))
        : List Char) =
      ("<style>").toList ++ (s ++ (("</style>").toList ++ X)) from rfl]
    exact delM_some (matchTagBlock_style_at s X hs)
  rw [show (("<style>").toList : List Char) ++
      (s ++ (("</style>").toList ++ X)) =
    '<' :: ((("style>").toList) ++ (s ++ (("</style>").toList ++ X)))
    from rfl]
  rw [scanRepl_cons_some hm]
  have hdrop : List.drop (s.length + 15 - 1)
      ((("style>").toList) ++ (s ++ (("</style>").toList ++ X))) = X := by
    have hsplit : (("style>").toList : List Char) ++
        (s ++ (("</style>").toList ++ X)) =
        ((("style>").toList) ++ (s ++ ("</style>").toList)) ++ X := by
      simp
    rw [hsplit]
    apply List.drop_left'
    simp
  rw [hdrop]
  simp

theorem scanRepl_scriptDel_block (a b t c : List Char)
    (ha : Lal a) (hb : Lal b) (ht : Lal t) (hc : Lal c) :
    scanRepl (delM (matchTagBlock (("<script").toList) (("</script>").toList)))
        (a ++ (b ++
          (("<script>").toList ++ (t ++ (("</script>").toList ++ c))))) =
      a ++ (b ++ c) := by
  rw [scanRepl_append_skip_mem a _ (fun x hx xs =>
    delM_none (@matchTagBlock_none_lal (("<script").toList)
      (("</script>").toList) x ⟨("script").toList, rfl⟩ (ha x hx) xs))]
  congr 1
  rw [scanRepl_append_skip_mem b _ (fun x hx xs =>
    delM_none (@matchTagBlock_none_lal (("<script").toList)
      (("</script>").toList) x ⟨("script").toList, rfl⟩ (hb x hx) xs))]
  congr 1
  have hm : delM (matchTagBlock (("<script").toList) (("</script>").toList))
      ('<' :: ((("script>").toList) ++ (t ++ (("</script>").toList ++ c)))) =
      some (t.length + 17, []) := by
    rw [show ('<' :: ((("script>").toList) ++ (t ++ (("</script>").toList ++ c)))
        : List Char) =
      ("<script>").toList ++ (t ++ (("</script>").toList ++ c)) from rfl]
    exact delM_some (matchTagBlock_script_at t c ht)
  rw [show (("<script>").toList : List Char) ++
      (t ++ (("</script>").toList ++ c)) =
    '<' :: ((("script>").toList) ++ (t ++ (("</script>").toList ++ c)))
    from rfl]
  rw [scanRepl_cons_some hm]
  have hdrop : List.drop (t.length + 17 - 1)
      ((("script>").toList) ++ (t ++ (("</script>").toList ++ c))) = c := by
    have hsplit : (("script>").toList : List Char) ++
        (t ++ (("</script>").toList ++ c)) =
        ((("script>").toList) ++ (t ++ ("</script>").toList)) ++ c := by
      simp
    rw [hsplit]
    apply List.drop_left'
    simp
  rw [hdrop]
  rw [scanRepl_id_mem c (fun x hx xs =>
    delM_none (@matchTagBlock_none_lal (("<script").toList)
      (("</script>").toList) x ⟨("script").toList, rfl⟩ (hc x hx) xs))]
  simp

theorem sanitize_step5_id_noSp (l : List Char) (h : NoSp l) :
    sanitize_step5 l = l := by
  unfold sanitize_step5
  rw [scanRepl_id_mem l (attr_none_of_noSp h)]
  rw [scanRepl_id_mem l (wild_none_of_noSp h)]
  rw [scanRepl_id_mem l (wild_none_of_noSp h)]
  rw [scanRepl_id_mem l (attr_none_of_noSp h)]

theorem pyStrip_id_noSp (l : List Char) (h : NoSp l) : pyStrip l = l := by
  unfold pyStrip
  have h1 : l.dropWhile isPySpace = l := by
    cases l with
    | nil => rfl
    | cons x xs =>
      rw [List.dropWhile_cons, h x (by simp)]
      simp
  rw [h1]
  have h2 : l.reverse.dropWhile isPySpace = l.reverse := by
    cases hr : l.reverse with
    | nil => rfl
    | cons x xs =>
      have hx : x ∈ l := by
        have hx0 : x ∈ l.reverse := by
          rw [hr]
          exact List.mem_cons_self x xs
        simpa using hx0
      rw [List.dropWhile_cons, h x hx]
      simp
  rw [h2, List.reverse_reverse]

theorem hasTagPair_false_no_lt {o c : List Char} (ho : o.head? = some '<')
    {l : List Char} (h : ∀ x ∈ l, x ≠ '<') :
    hasTagPair o c l = false := by
  induction l with
  | nil => rfl
  | cons x xs ih =>
    unfold hasTagPair
    have h1 : o.isPrefixOf (x :: xs) = false := by
      cases o with
      | nil => simp at ho
      | cons o0 os =>
        have ho0 : o0 = '<' := by simpa using ho
        subst ho0
        have hx : ('<' == x) = false := by
          have := h x (by simp)
          simpa using fun he => this he.symm
        simp [List.isPrefixOf, hx]
    rw [h1]
    simp only [Bool.false_and, Bool.false_or]
    exact ih (fun y hy => h y (by simp [hy]))

/-- C6 counterexample: the structural round-trip property fails.  The
input below contains a `<style>x</style>` block followed by a
`<script>z</script>` block, yet because `re.sub` deletes matches from
the original string without rescanning the output, the fragments
`<sty` and `le>hello</style>` that surround the deleted block
reconstitute a full `<style>hello</style>` substring in the sanitizer's
output. -/
theorem claim_C6_counterexample :
    (∃ u s2 v t2 w : List Char,
      ("<sty<style>x</style>le>hello</style><script>z</script>").toList =
        u ++ ("<style>").toList ++ s2 ++ ("</style>").toList ++ v ++
          ("<script>").toList ++ t2 ++ ("</script>").toList ++ w) ∧
    hasTagPair (("<style>").toList) (("</style>").toList)
      (sanitize_primary
        (("<sty<style>x</style>le>hello</style><script>z</script>").toList)) =
      true := by
  constructor
  · exact ⟨("<sty").toList, ("x").toList, ("le>hello</style>").toList,
      ("z").toList, [], by decide⟩
  · decide

/-- C6 amended: for inputs consisting of a `<style>…</style>` block
followed by a `<script>…</script>` block whose surrounding text and
bodies are inert (alphanumeric, so no partial tags, quotes or
whitespace), the sanitizer returns exactly the outside text
`a ++ b ++ c`, which contains neither a `<style>…</style>` nor a
`<script>…</script>` substring and preserves all plain text that lay
outside the blocks verbatim.  The restriction to inert context is
forced by the counterexample: overlapping partial tags in the
surrounding text can reconstitute a style block, since `re.sub` never
rescans its output. -/
theorem claim_C6_amended (a s b t c : List Char)
    (ha : Lal a) (hs : Lal s) (hb : Lal b) (ht : Lal t) (hc : Lal c) :
    sanitize_primary
        (a ++ ("<style>").toList ++ s ++ ("</style>").toList ++ b ++
          ("<script>").toList ++ t ++ ("</script>").toList ++ c) =
      a ++ b ++ c ∧
    hasTagPair (("<style>").toList) (("</style>").toList) (a ++ b ++ c) =
      false ∧
    hasTagPair (("<script>").toList) (("</script>").toList) (a ++ b ++ c) =
      false := by
  have hlalM2 : Lal (a ++ (b ++ c)) := Lal_append ha (Lal_append hb hc)
  have hM2 : NoSp (a ++ (b ++ c)) := NoSp_of_lal hlalM2
  have hN1 : NoSp (a ++ (b ++ (("<script>").toList ++
      (t ++ (("</script>").toList ++ c))))) :=
    NoSp_append (NoSp_of_lal ha) (NoSp_append (NoSp_of_lal hb)
      (NoSp_append (by decide) (NoSp_append (NoSp_of_lal ht)
        (NoSp_append (by decide) (NoSp_of_lal hc)))))
  refine ⟨?_, ?_, ?_⟩
  · have hre : a ++ ("<style>").toList ++ s ++ ("</style>").toList ++ b ++
        ("<script>").toList ++ t ++ ("</script>").toList ++ c =
        a ++ (("<style>").toList ++ (s ++ (("</style>").toList ++ (b ++
          (("<script>").toList ++ (t ++ (("</script>").toList ++ c))))))) := by
      simp [List.append_assoc]
    have e1 : scanRepl
        (delM (matchTagBlock (("<style").toList) (("</style>").toList)))
        (a ++ (("<style>").toList ++ (s ++ (("</style>").toList ++ (b ++
          (("<script>").toList ++ (t ++ (("</script>").toList ++ c)))))))) =
        a ++ (b ++ (("<script>").toList ++
          (t ++ (("</script>").toList ++ c)))) := by
      rw [scanRepl_styleDel_block a s _ ha hs]
      rw [scanRepl_skips_script_region
        (delM (matchTagBlock (("<style").toList) (("</style>").toList)))
        b t c hb ht hc
        (fun x hx xs => delM_none (@matchTagBlock_none_lal
          (("<style").toList) (("</style>").toList) x
          ⟨("style").toList, rfl⟩ hx xs))
        (fun R => rfl)
        (by intro i R hi; interval_cases i <;> rfl)
        (fun R => rfl)
        (by intro i R hi; interval_cases i <;> rfl)]
    have e2 : scanRepl (delM (matchAttr (("style").toList)))
        (a ++ (b ++ (("<script>").toList ++
          (t ++ (("</script>").toList ++ c))))) =
        a ++ (b ++ (("<script>").toList ++
          (t ++ (("</script>").toList ++ c)))) :=
      scanRepl_id_mem _ (attr_none_of_noSp hN1)
    have e3 : scanRepl (delM matchLink)
        (a ++ (b ++ (("<script>").toList ++
          (t ++ (("</script>").toList ++ c))))) =
        a ++ (b ++ (("<script>").toList ++
          (t ++ (("</script>").toList ++ c)))) := by
      rw [scanRepl_append_skip_mem a _
        (fun x hx xs => delM_none (matchLink_none_lal (ha x hx) xs))]
      rw [scanRepl_skips_script_region (delM matchLink) b t c hb ht hc
        (fun x hx xs => delM_none (matchLink_none_lal hx xs))
        (fun R => rfl)
        (by intro i R hi; interval_cases i <;> rfl)
        (fun R => rfl)
        (by intro i R hi; interval_cases i <;> rfl)]
    have e4 : scanRepl (delM (matchAttr (("class").toList)))
        (a ++ (b ++ (("<script>").toList ++
          (t ++ (("</script>").toList ++ c))))) =
        a ++ (b ++ (("<script>").toList ++
          (t ++ (("</script>").toList ++ c)))) :=
      scanRepl_id_mem _ (attr_none_of_noSp hN1)
    have e5 : sanitize_step5
        (a ++ (b ++ (("<script>").toList ++
          (t ++ (("</script>").toList ++ c))))) =
        a ++ (b ++ (("<script>").toList ++
          (t ++ (("</script>").toList ++ c)))) :=
      sanitize_step5_id_noSp _ hN1
    have e6 : scanRepl
        (delM (matchTagBlock (("<script").toList) (("</script>").toList)))
        (a ++ (b ++ (("<script>").toList ++
          (t ++ (("</script>").toList ++ c))))) = a ++ (b ++ c) :=
      scanRepl_scriptDel_block a b t c ha hb ht hc
    have e7a : scanRepl wsRun (a ++ (b ++ c)) = a ++ (b ++ c) :=
      scanRepl_id_mem _ (fun x hx xs => wsRun_none_not_space (hM2 x hx) xs)
    have e7b : scanRepl gtWsLt (a ++ (b ++ c)) = a ++ (b ++ c) :=
      scanRepl_id_mem _ (fun x hx xs =>
        gtWsLt_none_ne ((lal_facts x (hlalM2 x hx)).2.2.2.2.1) xs)
    have e7c : scanRepl ltWsDel (a ++ (b ++ c)) = a ++ (b ++ c) :=
      scanRepl_id_mem _ (fun x hx xs =>
        ltWsDel_none_ne ((lal_facts x (hlalM2 x hx)).2.2.2.1) xs)
    have e7d : scanRepl wsGtDel (a ++ (b ++ c)) = a ++ (b ++ c) :=
      scanRepl_id_mem _ (fun x hx xs => wsGtDel_none_not_space (hM2 x hx) xs)
    have estrip : pyStrip (a ++ (b ++ c)) = a ++ (b ++ c) :=
      pyStrip_id_noSp _ hM2
    rw [hre]
    show pyStrip (scanRepl wsGtDel (scanRepl ltWsDel (scanRepl gtWsLt (scanRepl wsRun (scanRepl (delM (matchTagBlock (("<script").toList) (("</script>").toList))) (sanitize_step5 (scanRepl (delM (matchAttr (("class").toList))) (scanRepl (delM matchLink) (scanRepl (delM (matchAttr (("style").toList))) (scanRepl (delM (matchTagBlock (("<style").toList) (("</style>").toList))) ((a ++ (("<style>").toList ++ (s ++ (("</style>").toList ++ (b ++ (("<script>").toList ++ (t ++ (("</script>").toList ++ c))))))))))))))))))) =
      a ++ b ++ c
    rw [e1, e2, e3, e4, e5, e6, e7a, e7b, e7c, e7d, estrip]
    simp [List.append_assoc]
  · exact @hasTagPair_false_no_lt (("<style>").toList) (("</style>").toList)
      rfl (a ++ b ++ c)
      (fun x hx =>
        (lal_facts x ((Lal_append (Lal_append ha hb) hc) x hx)).2.2.2.1)
  · exact @hasTagPair_false_no_lt (("<script>").toList) (("</script>").toList)
      rfl (a ++ b ++ c)
      (fun x hx =>
        (lal_facts x ((Lal_append (Lal_append ha hb) hc) x hx)).2.2.2.1)

/-- Witness for C6 amended at concrete inert fragments. -/
theorem claim_C6_witness :
    (Lal (("pre").toList) ∧ Lal (("ss").toList) ∧ Lal (("mid").toList) ∧
      Lal (("tt").toList) ∧ Lal (("post").toList)) ∧
    (sanitize_primary
        (("pre").toList ++ ("<style>").toList ++ ("ss").toList ++
          ("</style>").toList ++ ("mid").toList ++ ("<script>").toList ++
          ("tt").toList ++ ("</script>").toList ++ ("post").toList) =
      ("pre").toList ++ ("mid").toList ++ ("post").toList ∧
    hasTagPair (("<style>").toList) (("</style>").toList)
      (("pre").toList ++ ("mid").toList ++ ("post").toList) = false ∧
    hasTagPair (("<script>").toList) (("</script>").toList)
      (("pre").toList ++ ("mid").toList ++ ("post").toList) = false) :=
  ⟨⟨by decide, by decide, by decide, by decide, by decide⟩,
    claim_C6_amended (("pre").toList) (("ss").toList) (("mid").toList)
      (("tt").toList) (("post").toList)
      (by decide) (by decide) (by decide) (by decide) (by decide)⟩

end HtmlPdf
